import Mathlib

/-!
The ece355 measurement-and-display firmware, `Main Project/main.c`.

A shallow embedding of the frequency-capture interrupt handlers, the display
transport, the text renderer and the telemetry formatter of `main.c`, followed
by the properties proved about them.

Conventions of the embedding.

* Unsigned machine words (`unsigned int`, `uint16_t`, `uint32_t`, peripheral
  registers, `unsigned char`) are natural numbers.
* `float` is IEEE-754 binary32 with round-to-nearest-even, embedded exactly:
  a non-negative finite value is `m * 2 ^ e`.
* A C operation whose behaviour is undefined (conversion of an out-of-range
  `float` to `unsigned int`, a read past the end of `Characters`) makes the
  embedded function return `none`.
* Hardware polling loops (`while ((SPI1->SR & SPI_SR_TXE) == 0)`, the wait for
  the timer update flag) are taken to be left by the hardware; the polling
  itself changes no modelled state.
* Interrupts are taken between, not inside, the modelled functions.
-/

namespace Ece355

/-! ## IEEE-754 binary32, non-negative values -/

/-- A `float` value: the finite non-negative number `m * 2 ^ e`, `+inf`, or NaN. -/
inductive F32 where
  | fin (m : Nat) (e : Int)
  | inf
  | nan
deriving DecidableEq, Repr

/-- Floor of the base-2 logarithm, by halving; `fuel` bounds the number of halvings. -/
def log2Fuel : Nat → Nat → Nat
  | 0, _ => 0
  | fuel + 1, n => if n < 2 then 0 else log2Fuel fuel (n / 2) + 1

/-- Position of the leading one bit of `n` (0 for `n = 0`). -/
def ilog2 (n : Nat) : Nat := log2Fuel n n

/-- The fraction `num / den * 2 ^ s` as a pair of naturals. -/
def scalePair (num den : Nat) (s : Int) : Nat × Nat :=
  match s with
  | Int.ofNat k => (num * 2 ^ k, den)
  | Int.negSucc k => (num, den * 2 ^ (k + 1))

/-- The integer nearest to `N / D`, ties to even. -/
def roundNearestEven (N D : Nat) : Nat :=
  if 2 * (N % D) < D then N / D
  else if D < 2 * (N % D) then N / D + 1
  else N / D + (N / D) % 2

/-- The binary exponent that brings `num / den` into `[2 ^ 23, 2 ^ 24)`:
`2 ^ 23 ≤ num / den * 2 ^ f32shift num den < 2 ^ 24` (`num, den > 0`). -/
def f32shift (num den : Nat) : Int :=
  let s0 : Int := 24 + (ilog2 den : Int) - (ilog2 num : Int)
  if 2 ^ 24 ≤ (scalePair num den s0).1 / (scalePair num den s0).2 then s0 - 1 else s0

/-- Rounding of the exact fraction `num / den` (`den > 0`) to binary32:
24 significant bits, round to nearest even, gradual underflow below `2 ^ -126`
and overflow to infinity from `2 ^ 128`. -/
def f32round (num den : Nat) : F32 :=
  if num = 0 then F32.fin 0 0 else
  let s : Int := min (f32shift num den) 149
  let m := roundNearestEven (scalePair num den s).1 (scalePair num den s).2
  if 104 < -s ∨ (-s = 104 ∧ 2 ^ 24 ≤ m) then F32.inf else F32.fin m (-s)

/-- The conversion `(float)n` of an unsigned integer. -/
def f32ofNat (n : Nat) : F32 := f32round n 1

/-- The `float` division `a / b` (non-negative operands). -/
def f32div (a b : F32) : F32 :=
  match a, b with
  | F32.nan, _ => F32.nan
  | _, F32.nan => F32.nan
  | F32.inf, F32.inf => F32.nan
  | F32.inf, F32.fin _ _ => F32.inf
  | F32.fin _ _, F32.inf => F32.fin 0 0
  | F32.fin m1 e1, F32.fin m2 e2 =>
    if m2 = 0 then (if m1 = 0 then F32.nan else F32.inf)
    else
      let p := scalePair m1 m2 (e1 - e2)
      f32round p.1 p.2

/-- The integer part of the finite value `m * 2 ^ e`. -/
def f32floor (m : Nat) (e : Int) : Nat :=
  match e with
  | Int.ofNat k => m * 2 ^ k
  | Int.negSucc k => m / 2 ^ (k + 1)

/-- The conversion `(unsigned int)x`: truncation toward zero; undefined (`none`)
for NaN, infinity and values that do not fit in 32 bits. -/
def f32toU32 : F32 → Option Nat
  | F32.fin m e => if f32floor m e < 2 ^ 32 then some (f32floor m e) else none
  | _ => none

/-! ## Peripheral constants -/

/-- Modelled from the spec: the vendor device header is not among the sources;
the counter-enable bit of the timer control register (`TIM_CR1_CEN`). -/
def TIM_CR1_CEN : Nat := 0x0001

/-- Modelled from the spec: pending flag of the button line (`EXTI_PR_PR0`);
the vendor device header is not among the sources. -/
def EXTI_PR_PR0 : Nat := 0x0001

/-- Modelled from the spec: pending flag of edge line 1 (`EXTI_PR_PR1`);
the vendor device header is not among the sources. -/
def EXTI_PR_PR1 : Nat := 0x0002

/-- Modelled from the spec: pending flag of edge line 2 (`EXTI_PR_PR2`);
the vendor device header is not among the sources. -/
def EXTI_PR_PR2 : Nat := 0x0004

/-- Modelled from the spec: interrupt-mask bit of the button line (`EXTI_IMR_IM0`);
the vendor device header is not among the sources. -/
def EXTI_IMR_IM0 : Nat := 0x0001

/-- Modelled from the spec: interrupt-mask bit of edge line 1 (`EXTI_IMR_IM1`);
the vendor device header is not among the sources. -/
def EXTI_IMR_IM1 : Nat := 0x0002

/-- Modelled from the spec: interrupt-mask bit of edge line 2 (`EXTI_IMR_IM2`);
the vendor device header is not among the sources. -/
def EXTI_IMR_IM2 : Nat := 0x0004

/-- The C operator `~` on a 32-bit word. -/
def not32 (v : Nat) : Nat := 0xFFFFFFFF ^^^ v

/-- Modelled from the spec: the external-interrupt pending register is
write-one-to-clear ("signal/clear/mask a line-change event"; the handlers'
own comment on `EXTI->PR |= flag` is "clear pending flag"): a store of `v`
clears the pending bits that are 1 in `v` and leaves the others. -/
def EXTI_PR_store (pr v : Nat) : Nat := pr ^^^ (pr &&& v)

/-! ## Program and peripheral state -/

/-- One byte shifted out on the display bus, with the levels of the
chip-select (PB6) and data/command (PB7) pins at that moment. -/
structure BusByte where
  value : Nat
  cs : Bool
  dc : Bool
deriving DecidableEq, Repr

/-- The global variables of `main.c` and the peripheral registers it uses. -/
@[ext]
structure State where
  Freq : Nat
  Res : Nat
  edge_count : Nat
  input_line : Nat
  POT_val : Nat
  bufferindex : Nat
  characterindex : Nat
  SystemCoreClock : Nat
  EXTI_PR : Nat
  EXTI_IMR : Nat
  TIM2_CNT : Nat
  TIM2_CR1 : Nat
  TIM3_ARR : Nat
  TIM3_CR1 : Nat
  ADC1_DR : Nat
  DAC_DHR12R1 : Nat
  PB4 : Bool
  PB6 : Bool
  PB7 : Bool
  bus : List BusByte
deriving DecidableEq, Repr

/-! ## Interrupt handlers -/

/-- `EXTI2_3_IRQHandler`: edge capture on line 2. -/
def EXTI2_3_IRQHandler (s : State) : Option State :=
  if s.EXTI_PR &&& EXTI_PR_PR2 ≠ 0 then
    let body : Option State :=
      if s.input_line = 2 then
        if s.edge_count = 0 then
          some { s with
            TIM2_CNT := s.TIM2_CNT &&& 0
            TIM2_CR1 := s.TIM2_CR1 ||| TIM_CR1_CEN
            edge_count := 1 }
        else
          let periodd := f32div (f32ofNat s.TIM2_CNT) (f32ofNat s.SystemCoreClock)
          match f32toU32 (f32div (f32ofNat 1) periodd) with
          | some v =>
            some { s with
              TIM2_CR1 := s.TIM2_CR1 &&& not32 TIM_CR1_CEN
              Freq := v
              edge_count := 0 }
          | none => none
      else some s
    body.map fun t => { t with EXTI_PR := EXTI_PR_store t.EXTI_PR (t.EXTI_PR ||| EXTI_PR_PR2) }
  else some s

/-- The first `if` of `EXTI0_1_IRQHandler`: the button toggles the measured line. -/
def EXTI0_1_button (s : State) : State :=
  if s.EXTI_PR &&& EXTI_PR_PR0 ≠ 0 then
    let t : State :=
      if s.input_line = 1 then
        { s with input_line := 2, EXTI_IMR := s.EXTI_IMR ||| EXTI_IMR_IM2 }
      else
        { s with input_line := 1, EXTI_IMR := s.EXTI_IMR &&& not32 EXTI_IMR_IM2 }
    { t with EXTI_PR := EXTI_PR_store t.EXTI_PR (t.EXTI_PR ||| EXTI_PR_PR0) }
  else s

/-- The second `if` of `EXTI0_1_IRQHandler`: edge capture on line 1. -/
def EXTI0_1_edge (s : State) : Option State :=
  if s.EXTI_PR &&& EXTI_PR_PR1 ≠ 0 then
    let body : Option State :=
      if s.input_line = 1 then
        if s.edge_count = 0 then
          some { s with
            TIM2_CNT := s.TIM2_CNT &&& 0
            TIM2_CR1 := s.TIM2_CR1 ||| TIM_CR1_CEN
            edge_count := 1 }
        else
          let periodd := f32div (f32ofNat s.TIM2_CNT) (f32ofNat s.SystemCoreClock)
          match f32toU32 (f32div (f32ofNat 1) periodd) with
          | some v =>
            some { s with
              TIM2_CR1 := s.TIM2_CR1 &&& not32 TIM_CR1_CEN
              Freq := v
              edge_count := 0 }
          | none => none
      else some s
    body.map fun t => { t with EXTI_PR := EXTI_PR_store t.EXTI_PR (t.EXTI_PR ||| EXTI_PR_PR1) }
  else some s

/-- `EXTI0_1_IRQHandler`: the button block, then the line-1 edge block. -/
def EXTI0_1_IRQHandler (s : State) : Option State :=
  EXTI0_1_edge (EXTI0_1_button s)

/-! ## Hardware events between handler runs -/

/-- An interrupt source of the capture logic. -/
inductive Line where
  | button
  | line1
  | line2
deriving DecidableEq, Repr

/-- The pending flag of a line. -/
def Line.flag : Line → Nat
  | Line.button => EXTI_PR_PR0
  | Line.line1 => EXTI_PR_PR1
  | Line.line2 => EXTI_PR_PR2

/-- The value of `input_line` that selects a line for measurement. -/
def Line.number : Line → Nat
  | Line.button => 0
  | Line.line1 => 1
  | Line.line2 => 2

/-- The interrupt handler that services a line: EXTI0 (button) and EXTI1
share `EXTI0_1_IRQHandler`, EXTI2 has `EXTI2_3_IRQHandler`. -/
def Line.handler : Line → State → Option State
  | Line.line2 => EXTI2_3_IRQHandler
  | _ => EXTI0_1_IRQHandler

/-- What happens between and at interrupts: the capture counter advances by
`n` ticks while it is enabled, or a rising edge arrives on a line. -/
inductive Event where
  | ticks (n : Nat)
  | rise (l : Line)
deriving DecidableEq, Repr

/-- The capture counter advances by `n` ticks if its enable bit is set. -/
def countTicks (n : Nat) (s : State) : State :=
  if s.TIM2_CR1 &&& TIM_CR1_CEN ≠ 0 then
    { s with TIM2_CNT := (s.TIM2_CNT + n) % 2 ^ 32 }
  else s

/-- A rising edge on line `l`: if the line is unmasked its pending flag is
set and the handler of that line runs. -/
def riseEvent (l : Line) (s : State) : Option State :=
  if s.EXTI_IMR &&& l.flag ≠ 0 then
    l.handler { s with EXTI_PR := s.EXTI_PR ||| l.flag }
  else some s

/-- One event. -/
def step (s : State) : Event → Option State
  | Event.ticks n => some (countTicks n s)
  | Event.rise l => riseEvent l s

/-- A sequence of events, stopping at the first undefined step. -/
def run : State → List Event → Option State
  | s, [] => some s
  | s, e :: es => (step s e).bind fun t => run t es

/-- The frequency conversion of the second-edge branch, as a function of the
counter reading `T` and the counting clock `F`:
`(unsigned int)(1 / ((float)T / (float)F))`. -/
def freqOf (T F : Nat) : Option Nat :=
  f32toU32 (f32div (f32ofNat 1) (f32div (f32ofNat T) (f32ofNat F)))

/-- The state after `main`'s initialisation calls, before any interrupt: the
globals at their initialisers, all three lines unmasked by `myEXTI_Init`, the
counter stopped, clocked at `F`. -/
def initState (F : Nat) : State :=
  { Freq := 0, Res := 0, edge_count := 0, input_line := 1, POT_val := 0,
    bufferindex := 0, characterindex := 0, SystemCoreClock := F,
    EXTI_PR := 0, EXTI_IMR := EXTI_IMR_IM0 ||| EXTI_IMR_IM1 ||| EXTI_IMR_IM2,
    TIM2_CNT := 0, TIM2_CR1 := 0x008C, TIM3_ARR := 100, TIM3_CR1 := 0x008C,
    ADC1_DR := 0, DAC_DHR12R1 := 0, PB4 := false, PB6 := false, PB7 := false, bus := [] }

/-! ## Display transport -/

/-- `oled_Write`: one byte is shifted out on the bus (`HAL_SPI_Transmit`, between
the two waits for the transmit-buffer-empty flag); the bus trace records it
together with the pin levels of that moment. -/
def oled_Write (Value : Nat) (s : State) : State :=
  { s with bus := s.bus ++ [{ value := Value, cs := s.PB6, dc := s.PB7 }] }

/-- `oled_Write_Cmd`: PB6 (CS#) high, PB7 (D/C#) low, PB6 low, the byte,
PB6 high. -/
def oled_Write_Cmd (cmd : Nat) (s : State) : State :=
  let s1 : State := { s with PB6 := true }
  let s2 : State := { s1 with PB7 := false }
  let s3 : State := { s2 with PB6 := false }
  let s4 : State := oled_Write cmd s3
  { s4 with PB6 := true }

/-- `oled_Write_Data`: PB6 (CS#) high, PB7 (D/C#) high, PB6 low, the byte,
PB6 high. -/
def oled_Write_Data (data : Nat) (s : State) : State :=
  let s1 : State := { s with PB6 := true }
  let s2 : State := { s1 with PB7 := true }
  let s3 : State := { s2 with PB6 := false }
  let s4 : State := oled_Write data s3
  { s4 with PB6 := true }

/-- A command byte as it appears on the bus: chip-select asserted (low),
data/command low. -/
def cmdByte (b : Nat) : BusByte := { value := b, cs := false, dc := false }

/-- A data byte as it appears on the bus: chip-select asserted (low),
data/command high. -/
def dataByte (b : Nat) : BusByte := { value := b, cs := false, dc := true }

/-- `wait`: timer 3 is loaded with the delay and started, the update flag is
polled, and the timer is stopped. The running count itself is not modelled. -/
def wait (wait_time : Nat) (s : State) : State :=
  { s with
    TIM3_ARR := wait_time
    TIM3_CR1 := (s.TIM3_CR1 ||| TIM_CR1_CEN) &&& not32 TIM_CR1_CEN }

/-! ## Glyph table and text rendering -/

/-- `oled_init_cmds`. -/
def oled_init_cmds : List Nat :=
  [ 0xAE,
    0x20, 0x00,
    0x40,
    0xA0 ||| 0x01,
    0xA8, 0x40 - 1,
    0xC0 ||| 0x08,
    0xD3, 0x00,
    0xDA, 0x32,
    0xD5, 0x80,
    0xD9, 0x22,
    0xDB, 0x30,
    0x81, 0xFF,
    0xA4,
    0xA6,
    0xAD, 0x30,
    0x8D, 0x10,
    0xAE ||| 0x01,
    0xC0,
    0xA0 ]

/-- `Characters`: one row of 8 column bytes per character code. -/
def Characters : List (List Nat) :=
  [ [0x00, 0x00, 0x00, 0x00, 0x00, 0x00, 0x00, 0x00],
    [0x00, 0x00, 0x00, 0x00, 0x00, 0x00, 0x00, 0x00],
    [0x00, 0x00, 0x00, 0x00, 0x00, 0x00, 0x00, 0x00],
    [0x00, 0x00, 0x00, 0x00, 0x00, 0x00, 0x00, 0x00],
    [0x00, 0x00, 0x00, 0x00, 0x00, 0x00, 0x00, 0x00],
    [0x00, 0x00, 0x00, 0x00, 0x00, 0x00, 0x00, 0x00],
    [0x00, 0x00, 0x00, 0x00, 0x00, 0x00, 0x00, 0x00],
    [0x00, 0x00, 0x00, 0x00, 0x00, 0x00, 0x00, 0x00],
    [0x00, 0x00, 0x00, 0x00, 0x00, 0x00, 0x00, 0x00],
    [0x00, 0x00, 0x00, 0x00, 0x00, 0x00, 0x00, 0x00],
    [0x00, 0x00, 0x00, 0x00, 0x00, 0x00, 0x00, 0x00],
    [0x00, 0x00, 0x00, 0x00, 0x00, 0x00, 0x00, 0x00],
    [0x00, 0x00, 0x00, 0x00, 0x00, 0x00, 0x00, 0x00],
    [0x00, 0x00, 0x00, 0x00, 0x00, 0x00, 0x00, 0x00],
    [0x00, 0x00, 0x00, 0x00, 0x00, 0x00, 0x00, 0x00],
    [0x00, 0x00, 0x00, 0x00, 0x00, 0x00, 0x00, 0x00],
    [0x00, 0x00, 0x00, 0x00, 0x00, 0x00, 0x00, 0x00],
    [0x00, 0x00, 0x00, 0x00, 0x00, 0x00, 0x00, 0x00],
    [0x00, 0x00, 0x00, 0x00, 0x00, 0x00, 0x00, 0x00],
    [0x00, 0x00, 0x00, 0x00, 0x00, 0x00, 0x00, 0x00],
    [0x00, 0x00, 0x00, 0x00, 0x00, 0x00, 0x00, 0x00],
    [0x00, 0x00, 0x00, 0x00, 0x00, 0x00, 0x00, 0x00],
    [0x00, 0x00, 0x00, 0x00, 0x00, 0x00, 0x00, 0x00],
    [0x00, 0x00, 0x00, 0x00, 0x00, 0x00, 0x00, 0x00],
    [0x00, 0x00, 0x00, 0x00, 0x00, 0x00, 0x00, 0x00],
    [0x00, 0x00, 0x00, 0x00, 0x00, 0x00, 0x00, 0x00],
    [0x00, 0x00, 0x00, 0x00, 0x00, 0x00, 0x00, 0x00],
    [0x00, 0x00, 0x00, 0x00, 0x00, 0x00, 0x00, 0x00],
    [0x00, 0x00, 0x00, 0x00, 0x00, 0x00, 0x00, 0x00],
    [0x00, 0x00, 0x00, 0x00, 0x00, 0x00, 0x00, 0x00],
    [0x00, 0x00, 0x00, 0x00, 0x00, 0x00, 0x00, 0x00],
    [0x00, 0x00, 0x00, 0x00, 0x00, 0x00, 0x00, 0x00],
    [0x00, 0x00, 0x00, 0x00, 0x00, 0x00, 0x00, 0x00],
    [0x00, 0x00, 0x5F, 0x00, 0x00, 0x00, 0x00, 0x00],
    [0x00, 0x07, 0x00, 0x07, 0x00, 0x00, 0x00, 0x00],
    [0x14, 0x7F, 0x14, 0x7F, 0x14, 0x00, 0x00, 0x00],
    [0x24, 0x2A, 0x7F, 0x2A, 0x12, 0x00, 0x00, 0x00],
    [0x23, 0x13, 0x08, 0x64, 0x62, 0x00, 0x00, 0x00],
    [0x36, 0x49, 0x55, 0x22, 0x50, 0x00, 0x00, 0x00],
    [0x00, 0x05, 0x03, 0x00, 0x00, 0x00, 0x00, 0x00],
    [0x00, 0x1C, 0x22, 0x41, 0x00, 0x00, 0x00, 0x00],
    [0x00, 0x41, 0x22, 0x1C, 0x00, 0x00, 0x00, 0x00],
    [0x14, 0x08, 0x3E, 0x08, 0x14, 0x00, 0x00, 0x00],
    [0x08, 0x08, 0x3E, 0x08, 0x08, 0x00, 0x00, 0x00],
    [0x00, 0x50, 0x30, 0x00, 0x00, 0x00, 0x00, 0x00],
    [0x08, 0x08, 0x08, 0x08, 0x08, 0x00, 0x00, 0x00],
    [0x00, 0x60, 0x60, 0x00, 0x00, 0x00, 0x00, 0x00],
    [0x20, 0x10, 0x08, 0x04, 0x02, 0x00, 0x00, 0x00],
    [0x3E, 0x51, 0x49, 0x45, 0x3E, 0x00, 0x00, 0x00],
    [0x00, 0x42, 0x7F, 0x40, 0x00, 0x00, 0x00, 0x00],
    [0x42, 0x61, 0x51, 0x49, 0x46, 0x00, 0x00, 0x00],
    [0x21, 0x41, 0x45, 0x4B, 0x31, 0x00, 0x00, 0x00],
    [0x18, 0x14, 0x12, 0x7F, 0x10, 0x00, 0x00, 0x00],
    [0x27, 0x45, 0x45, 0x45, 0x39, 0x00, 0x00, 0x00],
    [0x3C, 0x4A, 0x49, 0x49, 0x30, 0x00, 0x00, 0x00],
    [0x03, 0x01, 0x71, 0x09, 0x07, 0x00, 0x00, 0x00],
    [0x36, 0x49, 0x49, 0x49, 0x36, 0x00, 0x00, 0x00],
    [0x06, 0x49, 0x49, 0x29, 0x1E, 0x00, 0x00, 0x00],
    [0x00, 0x36, 0x36, 0x00, 0x00, 0x00, 0x00, 0x00],
    [0x00, 0x56, 0x36, 0x00, 0x00, 0x00, 0x00, 0x00],
    [0x08, 0x14, 0x22, 0x41, 0x00, 0x00, 0x00, 0x00],
    [0x14, 0x14, 0x14, 0x14, 0x14, 0x00, 0x00, 0x00],
    [0x00, 0x41, 0x22, 0x14, 0x08, 0x00, 0x00, 0x00],
    [0x02, 0x01, 0x51, 0x09, 0x06, 0x00, 0x00, 0x00],
    [0x32, 0x49, 0x79, 0x41, 0x3E, 0x00, 0x00, 0x00],
    [0x7E, 0x11, 0x11, 0x11, 0x7E, 0x00, 0x00, 0x00],
    [0x7F, 0x49, 0x49, 0x49, 0x36, 0x00, 0x00, 0x00],
    [0x3E, 0x41, 0x41, 0x41, 0x22, 0x00, 0x00, 0x00],
    [0x7F, 0x41, 0x41, 0x22, 0x1C, 0x00, 0x00, 0x00],
    [0x7F, 0x49, 0x49, 0x49, 0x41, 0x00, 0x00, 0x00],
    [0x7F, 0x09, 0x09, 0x09, 0x01, 0x00, 0x00, 0x00],
    [0x3E, 0x41, 0x49, 0x49, 0x7A, 0x00, 0x00, 0x00],
    [0x7F, 0x08, 0x08, 0x08, 0x7F, 0x00, 0x00, 0x00],
    [0x40, 0x41, 0x7F, 0x41, 0x40, 0x00, 0x00, 0x00],
    [0x20, 0x40, 0x41, 0x3F, 0x01, 0x00, 0x00, 0x00],
    [0x7F, 0x08, 0x14, 0x22, 0x41, 0x00, 0x00, 0x00],
    [0x7F, 0x40, 0x40, 0x40, 0x40, 0x00, 0x00, 0x00],
    [0x7F, 0x02, 0x0C, 0x02, 0x7F, 0x00, 0x00, 0x00],
    [0x7F, 0x04, 0x08, 0x10, 0x7F, 0x00, 0x00, 0x00],
    [0x3E, 0x41, 0x41, 0x41, 0x3E, 0x00, 0x00, 0x00],
    [0x7F, 0x09, 0x09, 0x09, 0x06, 0x00, 0x00, 0x00],
    [0x3E, 0x41, 0x51, 0x21, 0x5E, 0x00, 0x00, 0x00],
    [0x7F, 0x09, 0x19, 0x29, 0x46, 0x00, 0x00, 0x00],
    [0x46, 0x49, 0x49, 0x49, 0x31, 0x00, 0x00, 0x00],
    [0x01, 0x01, 0x7F, 0x01, 0x01, 0x00, 0x00, 0x00],
    [0x3F, 0x40, 0x40, 0x40, 0x3F, 0x00, 0x00, 0x00],
    [0x1F, 0x20, 0x40, 0x20, 0x1F, 0x00, 0x00, 0x00],
    [0x3F, 0x40, 0x38, 0x40, 0x3F, 0x00, 0x00, 0x00],
    [0x63, 0x14, 0x08, 0x14, 0x63, 0x00, 0x00, 0x00],
    [0x07, 0x08, 0x70, 0x08, 0x07, 0x00, 0x00, 0x00],
    [0x61, 0x51, 0x49, 0x45, 0x43, 0x00, 0x00, 0x00],
    [0x7F, 0x41, 0x00, 0x00, 0x00, 0x00, 0x00, 0x00],
    [0x15, 0x16, 0x7C, 0x16, 0x15, 0x00, 0x00, 0x00],
    [0x00, 0x00, 0x00, 0x41, 0x7F, 0x00, 0x00, 0x00],
    [0x04, 0x02, 0x01, 0x02, 0x04, 0x00, 0x00, 0x00],
    [0x40, 0x40, 0x40, 0x40, 0x40, 0x00, 0x00, 0x00],
    [0x00, 0x01, 0x02, 0x04, 0x00, 0x00, 0x00, 0x00],
    [0x20, 0x54, 0x54, 0x54, 0x78, 0x00, 0x00, 0x00],
    [0x7F, 0x48, 0x44, 0x44, 0x38, 0x00, 0x00, 0x00],
    [0x38, 0x44, 0x44, 0x44, 0x20, 0x00, 0x00, 0x00],
    [0x38, 0x44, 0x44, 0x48, 0x7F, 0x00, 0x00, 0x00],
    [0x38, 0x54, 0x54, 0x54, 0x18, 0x00, 0x00, 0x00],
    [0x08, 0x7E, 0x09, 0x01, 0x02, 0x00, 0x00, 0x00],
    [0x0C, 0x52, 0x52, 0x52, 0x3E, 0x00, 0x00, 0x00],
    [0x7F, 0x08, 0x04, 0x04, 0x78, 0x00, 0x00, 0x00],
    [0x00, 0x44, 0x7D, 0x40, 0x00, 0x00, 0x00, 0x00],
    [0x20, 0x40, 0x44, 0x3D, 0x00, 0x00, 0x00, 0x00],
    [0x7F, 0x10, 0x28, 0x44, 0x00, 0x00, 0x00, 0x00],
    [0x00, 0x41, 0x7F, 0x40, 0x00, 0x00, 0x00, 0x00],
    [0x7C, 0x04, 0x18, 0x04, 0x78, 0x00, 0x00, 0x00],
    [0x7C, 0x08, 0x04, 0x04, 0x78, 0x00, 0x00, 0x00],
    [0x38, 0x44, 0x44, 0x44, 0x38, 0x00, 0x00, 0x00],
    [0x7C, 0x14, 0x14, 0x14, 0x08, 0x00, 0x00, 0x00],
    [0x08, 0x14, 0x14, 0x18, 0x7C, 0x00, 0x00, 0x00],
    [0x7C, 0x08, 0x04, 0x04, 0x08, 0x00, 0x00, 0x00],
    [0x48, 0x54, 0x54, 0x54, 0x20, 0x00, 0x00, 0x00],
    [0x04, 0x3F, 0x44, 0x40, 0x20, 0x00, 0x00, 0x00],
    [0x3C, 0x40, 0x40, 0x20, 0x7C, 0x00, 0x00, 0x00],
    [0x1C, 0x20, 0x40, 0x20, 0x1C, 0x00, 0x00, 0x00],
    [0x3C, 0x40, 0x38, 0x40, 0x3C, 0x00, 0x00, 0x00],
    [0x44, 0x28, 0x10, 0x28, 0x44, 0x00, 0x00, 0x00],
    [0x0C, 0x50, 0x50, 0x50, 0x3C, 0x00, 0x00, 0x00],
    [0x44, 0x64, 0x54, 0x4C, 0x44, 0x00, 0x00, 0x00],
    [0x00, 0x08, 0x36, 0x41, 0x00, 0x00, 0x00, 0x00],
    [0x00, 0x00, 0x7F, 0x00, 0x00, 0x00, 0x00, 0x00],
    [0x00, 0x41, 0x36, 0x08, 0x00, 0x00, 0x00, 0x00],
    [0x08, 0x08, 0x2A, 0x1C, 0x08, 0x00, 0x00, 0x00],
    [0x08, 0x1C, 0x2A, 0x08, 0x08, 0x00, 0x00, 0x00] ]

/-- `Characters[c][i]`; a read outside the table is undefined. -/
def glyphByte (c i : Nat) : Option Nat :=
  match Characters[c]? with
  | some row => row[i]?
  | none => none

/-- The inner loop
`while (characterindex <= 7) { oled_Write_Data(Characters[c][characterindex]); characterindex++; }`. -/
def glyphLoop : Nat → Nat → State → Option State
  | 0, _, _ => none
  | fuel + 1, c, s =>
    if s.characterindex ≤ 7 then
      match glyphByte c s.characterindex with
      | some b =>
        let t := oled_Write_Data b s
        glyphLoop fuel c { t with characterindex := (t.characterindex + 1) % 2 ^ 16 }
      | none => none
    else some s

/-- The outer loop `while (Buffer[bufferindex] != 0) { c = Buffer[bufferindex];
characterindex = 0; <inner loop>; bufferindex++; }`. A read past the end of
`Buffer` is undefined. The inner loop gets the 9 evaluations of its condition
that 8 columns need. -/
def textLoop : Nat → List Nat → State → Option State
  | 0, _, _ => none
  | fuel + 1, Buffer, s =>
    match Buffer[s.bufferindex]? with
    | some c =>
      if c ≠ 0 then
        match glyphLoop 9 c { s with characterindex := 0 } with
        | some t => textLoop fuel Buffer { t with bufferindex := (t.bufferindex + 1) % 2 ^ 16 }
        | none => none
      else some s
    | none => none

/-- The block that `perma_print` and `refresh_OLED` repeat for every text
line: page select, the two column-select commands, both cursor indices reset,
and the render loop over `Buffer` (17 bytes, so at most 17 evaluations of the
loop condition before the terminator is met). -/
def writeLine (page : Nat) (Buffer : List Nat) (s : State) : Option State :=
  let s1 := oled_Write_Cmd page s
  let s2 := oled_Write_Cmd 0x10 s1
  let s3 := oled_Write_Cmd 0x02 s2
  let s4 : State := { s3 with bufferindex := 0 }
  let s5 : State := { s4 with characterindex := 0 }
  textLoop 17 Buffer s5

/-! ## Text formatting (`snprintf`) -/

/-- The character codes of a string literal. -/
def cstr (s : String) : List Nat := s.toList.map Char.toNat

/-- The decimal digits of `v` as character codes, least significant first. -/
def digitsRev : Nat → Nat → List Nat
  | 0, _ => []
  | fuel + 1, v => if v < 10 then [48 + v] else (48 + v % 10) :: digitsRev fuel (v / 10)

/-- The conversion `%u` of the C library: the decimal digits of `v`, most
significant first. -/
def fmt_u (v : Nat) : List Nat := (digitsRev (v + 1) v).reverse

/-- The conversion `%5u`: `%u` padded on the left with spaces to at least
5 characters. -/
def fmt_5u (v : Nat) : List Nat :=
  List.replicate (5 - (fmt_u v).length) 32 ++ fmt_u v

/-- What the C library's `snprintf(Buffer, size, ...)` leaves in `Buffer` up to
and including the terminator: at most `size - 1` characters of the formatted
text, then 0. -/
def snprintf (size : Nat) (text : List Nat) : List Nat :=
  text.take (size - 1) ++ [0]

/-- The text of the resistance line, `"Res: %5u Ohms"`. -/
def resText (Res : Nat) : List Nat := cstr "Res: " ++ fmt_5u Res ++ cstr " Ohms"

/-- The text of the frequency line, `"Freq: %5u Hz"`. -/
def freqText (Freq : Nat) : List Nat := cstr "Freq: " ++ fmt_5u Freq ++ cstr " Hz"

/-! ## Screens -/

/-- `refresh_OLED`. -/
def refresh_OLED (s : State) : Option State :=
  (writeLine 0xB2 (snprintf 17 (resText s.Res)) s).bind fun s1 =>
  (writeLine 0xB4 (snprintf 17 (freqText s1.Freq)) s1).bind fun s2 =>
  some (wait 100 s2)

/-- `perma_print`. -/
def perma_print (s : State) : Option State :=
  (writeLine 0xB0 (snprintf 17 (cstr "Hi Guoliang! :)")) s).bind fun s1 =>
  (writeLine 0xB2 (snprintf 17 (cstr "Presenting...")) (wait 500 s1)).bind fun s2 =>
  (writeLine 0xB4 (snprintf 17 (cstr "ECE 355 Project")) (wait 500 s2)).bind fun s3 =>
  (writeLine 0xB6 (snprintf 17 (cstr "Sophie & Menoa")) (wait 500 s3)).bind fun s4 =>
  some (wait 500 s4)

/-- The loop `for (j = 0; j <= 127; j++) oled_Write_Data(0x00);`, by its trip count. -/
def zeroFill : Nat → State → State
  | 0, s => s
  | n + 1, s => zeroFill n (oled_Write_Data 0x00 s)

/-- The loop `for (i = 0; i <= 7; i++) { page select; column select; 128 zero
bytes; page++; }`, by its trip count, with the `unsigned char page`. -/
def clearLoop : Nat → Nat → State → State
  | 0, _, s => s
  | n + 1, page, s =>
    let s1 := oled_Write_Cmd page s
    let s2 := oled_Write_Cmd 0x02 s1
    let s3 := oled_Write_Cmd 0x10 s2
    let s4 := zeroFill 128 s3
    clearLoop n ((page + 1) % 256) s4

/-- The second half of `oled_config`: the display memory is filled with zeros. -/
def oled_clear (s : State) : State :=
  let s1 := oled_Write_Cmd 0x02 s
  let s2 := oled_Write_Cmd 0x10 s1
  clearLoop 8 0xB0 s2

/-- `oled_config`: reset pulse on PB4, the initialization commands, the clear. -/
def oled_config (s : State) : State :=
  let s1 := wait 3 { s with PB4 := false }
  let s2 := wait 3 { s1 with PB4 := true }
  let s3 := oled_init_cmds.foldl (fun t b => oled_Write_Cmd b t) s2
  oled_clear s3

/-- The 8 column bytes of character `c` (empty outside the table). -/
def glyphRow (c : Nat) : List Nat := Characters.getD c []

/-- A run of `oled_Write_Data` calls, one per byte. -/
def writeData (bytes : List Nat) (s : State) : State :=
  bytes.foldl (fun t b => oled_Write_Data b t) s

/-- A run of `oled_Write_Cmd` calls, one per byte. -/
def writeCmds (bytes : List Nat) (s : State) : State :=
  bytes.foldl (fun t b => oled_Write_Cmd b t) s

/-- What one pass of the clearing loop puts on the bus for each of `n` pages
from `page` on: the page select, the two column commands, 128 zero data bytes. -/
def pageTrace : Nat → Nat → List BusByte
  | 0, _ => []
  | n + 1, page =>
    [cmdByte page, cmdByte 0x02, cmdByte 0x10] ++ List.replicate 128 (dataByte 0x00)
      ++ pageTrace n ((page + 1) % 256)

/-- The byte sequence of the full-screen clear. -/
def clearTrace : List BusByte :=
  [cmdByte 0x02, cmdByte 0x10] ++ pageTrace 8 0xB0

/-- The number a string of decimal digits denotes. -/
def decimalValue (l : List Nat) : Nat := l.foldl (fun acc d => 10 * acc + (d - 48)) 0

/-- The finite float `r` is within relative error `2 ^ -24` of the exact value `x`. -/
def Approx (r : F32) (x : ℚ) : Prop :=
  ∃ m e, r = F32.fin m e ∧ |(m : ℚ) * (2 : ℚ) ^ e - x| ≤ x / 2 ^ 24

/-- A state in which the capture on line 1 is armed and the second edge is
pending, 48000 ticks after the first, at a 48 MHz counting clock. -/
def armedLine1 : State :=
  { initState 48000000 with
    edge_count := 1, EXTI_PR := EXTI_PR_PR1, TIM2_CNT := 48000, TIM2_CR1 := 0x008D }

/-- A state in which the capture is idle and an edge is pending on line 1. -/
def idleLine1 : State :=
  { initState 48000000 with EXTI_PR := EXTI_PR_PR1, TIM2_CNT := 77 }

/-- A state in which the capture on line 1 is armed and the button is pending. -/
def armedButton : State :=
  { initState 48000000 with
    edge_count := 1, EXTI_PR := EXTI_PR_PR0, TIM2_CNT := 48000, TIM2_CR1 := 0x008D }


/-! ## Analog loop -/

/-- The `float` multiplication `a * b` (non-negative operands). -/
def f32mul (a b : F32) : F32 :=
  match a, b with
  | F32.nan, _ => F32.nan
  | _, F32.nan => F32.nan
  | F32.inf, F32.inf => F32.inf
  | F32.inf, F32.fin m _ => if m = 0 then F32.nan else F32.inf
  | F32.fin m _, F32.inf => if m = 0 then F32.nan else F32.inf
  | F32.fin m1 e1, F32.fin m2 e2 =>
    let p := scalePair (m1 * m2) 1 (e1 + e2)
    f32round p.1 p.2

/-- Modelled from the spec: the data field of the converter's data register
(`ADC_DR_DATA`); the vendor device header is not among the sources. -/
def ADC_DR_DATA : Nat := 0xFFFF

/-- `ADC_reader`: after the wait for the end-of-conversion flag, the sample is
read into `POT_val`, scaled into `Res`, and the data register is copied to the
analog output register. -/
def ADC_reader (s : State) : Option State :=
  let s1 : State := { s with POT_val := s.ADC1_DR &&& ADC_DR_DATA }
  match f32toU32 (f32mul (f32div (f32ofNat s1.POT_val) (f32ofNat 0xFFF)) (f32ofNat 5000)) with
  | some v => some { s1 with Res := v, DAC_DHR12R1 := s1.ADC1_DR }
  | none => none

/-! ## Startup and main loop -/

/-- `myTIM2_Init`, as far as the modelled registers go: the control register
of the capture counter is set to `0x008C` (counter stopped). -/
def myTIM2_Init (s : State) : State := { s with TIM2_CR1 := 0x008C }

/-- `myTIM3_Init`, as far as the modelled registers go: control register
`0x008C`, auto-reload `myTIM3_PERIOD`. -/
def myTIM3_Init (s : State) : State := { s with TIM3_CR1 := 0x008C, TIM3_ARR := 100 }

/-- `myEXTI_Init`, as far as the modelled registers go: the three lines are
unmasked. -/
def myEXTI_Init (s : State) : State :=
  { s with EXTI_IMR := ((s.EXTI_IMR ||| EXTI_IMR_IM0) ||| EXTI_IMR_IM1) ||| EXTI_IMR_IM2 }

/-- The part of `main` before the endless loop. The clock, port, converter and
bus initialisation calls write configuration registers that are not modelled
and send nothing to the display. -/
def main_startup (s : State) : Option State :=
  let s1 := myTIM2_Init s
  let s2 := myTIM3_Init s1
  let s3 := myEXTI_Init s2
  let s4 := oled_config s3
  (perma_print s4).map oled_config

/-- One pass of the endless loop of `main`: `ADC_reader(); refresh_OLED();`. -/
def main_loop_pass (s : State) : Option State :=
  (ADC_reader s).bind refresh_OLED

/-- What the render block puts on the bus for one text line: the page select,
the column-select pair, and the 8 column bytes of each character. -/
def lineTrace (page : Nat) (text : List Nat) : List BusByte :=
  [cmdByte page, cmdByte 0x10, cmdByte 0x02] ++ (text.flatMap glyphRow).map dataByte

/-- What `perma_print` puts on the bus: the four banner lines. -/
def bannerTrace : List BusByte :=
  lineTrace 0xB0 (cstr "Hi Guoliang! :)") ++ lineTrace 0xB2 (cstr "Presenting...")
    ++ lineTrace 0xB4 (cstr "ECE 355 Project") ++ lineTrace 0xB6 (cstr "Sophie & Menoa")

/-- A state in which the button and an edge on line 1 are pending together
while line 2 is the measured line. -/
def buttonAndLine1 : State :=
  { initState 48000000 with input_line := 2, EXTI_PR := EXTI_PR_PR0 ||| EXTI_PR_PR1 }

/-- A state in which edges on both lines are pending while line 2 is the
measured line and its capture is armed. -/
def bothLinesPending : State :=
  { initState 48000000 with
    input_line := 2, edge_count := 1, EXTI_PR := EXTI_PR_PR1 ||| EXTI_PR_PR2,
    TIM2_CNT := 48000, TIM2_CR1 := 0x008D }

/-- A state in which the capture is idle, line 2 is the measured line and
edges are pending on both lines. -/
def idleBothLinesPending : State :=
  { initState 48000000 with input_line := 2, EXTI_PR := EXTI_PR_PR1 ||| EXTI_PR_PR2 }

/-- A state in which the capture is idle, line 1 is the measured line, and the
button and an edge on line 1 are pending together. -/
def buttonAndIdleLine1 : State :=
  { initState 48000000 with EXTI_PR := EXTI_PR_PR0 ||| EXTI_PR_PR1, TIM2_CNT := 77 }

/-- The frame of the renderer: `t` agrees with `s` on the measurement state
(`Freq`, `Res`, `edge_count`, `input_line`), on `POT_val`, on the clock value,
on the interrupt and capture-counter registers, on the converter registers and
on the reset pin PB4. What may differ is the display bus, the pins PB6 and PB7,
the cursor indices and the delay timer. -/
def RenderFrame (s t : State) : Prop :=
  t.Freq = s.Freq ∧ t.Res = s.Res ∧ t.edge_count = s.edge_count ∧
  t.input_line = s.input_line ∧ t.POT_val = s.POT_val ∧
  t.SystemCoreClock = s.SystemCoreClock ∧ t.EXTI_PR = s.EXTI_PR ∧
  t.EXTI_IMR = s.EXTI_IMR ∧ t.TIM2_CNT = s.TIM2_CNT ∧ t.TIM2_CR1 = s.TIM2_CR1 ∧
  t.ADC1_DR = s.ADC1_DR ∧ t.DAC_DHR12R1 = s.DAC_DHR12R1 ∧ t.PB4 = s.PB4

/-- The state reached from the initial state at 48 MHz by an edge on line 1,
48000 counter ticks and a button event. -/
def toggledArmed : State :=
  { initState 48000000 with
    input_line := 2, edge_count := 1, TIM2_CNT := 48000, TIM2_CR1 := 0x008D }

theorem log2Fuel_spec (fuel : Nat) : ∀ n : Nat, n ≠ 0 → n ≤ fuel →
    2 ^ log2Fuel fuel n ≤ n ∧ n < 2 ^ (log2Fuel fuel n + 1) := by
  induction fuel with
  | zero => intro n hn hle; omega
  | succ k ih =>
    intro n hn hle
    unfold log2Fuel
    by_cases h2 : n < 2
    · have h1 : n = 1 := by omega
      subst h1
      simp
    · rw [if_neg h2]
      have hne : n / 2 ≠ 0 := by omega
      have hk : n / 2 ≤ k := by omega
      obtain ⟨ha, hb⟩ := ih (n / 2) hne hk
      constructor
      · rw [pow_succ]; omega
      · rw [pow_succ] at hb ⊢; omega

theorem ilog2_spec (n : Nat) (hn : n ≠ 0) : 2 ^ ilog2 n ≤ n ∧ n < 2 ^ (ilog2 n + 1) :=
  log2Fuel_spec n n hn (le_refl n)

theorem scalePair_den_pos (num den : Nat) (s : Int) (hd : 0 < den) :
    0 < (scalePair num den s).2 := by
  cases s with
  | ofNat k => simpa [scalePair] using hd
  | negSucc k => simp [scalePair]; exact hd

theorem scalePair_ratio (num den : Nat) (s : Int) (hd : 0 < den) :
    ((scalePair num den s).1 : ℚ) / ((scalePair num den s).2 : ℚ)
      = (num : ℚ) / (den : ℚ) * (2 : ℚ) ^ s := by
  have hd' : (den : ℚ) ≠ 0 := by exact_mod_cast hd.ne'
  cases s with
  | ofNat k =>
    simp only [scalePair, Int.ofNat_eq_coe, zpow_natCast]
    push_cast
    field_simp
  | negSucc k =>
    simp only [scalePair, zpow_negSucc]
    push_cast
    field_simp

theorem roundNearestEven_bounds (N D : Nat) :
    N / D ≤ roundNearestEven N D ∧ roundNearestEven N D ≤ N / D + 1 := by
  unfold roundNearestEven
  split_ifs <;> omega

theorem roundNearestEven_err (N D : Nat) (hD : 0 < D) :
    |(roundNearestEven N D : ℚ) - (N : ℚ) / (D : ℚ)| ≤ 1 / 2 := by
  have hD' : (0 : ℚ) < D := by exact_mod_cast hD
  have hdm : (N : ℚ) = (D : ℚ) * ((N / D : Nat) : ℚ) + ((N % D : Nat) : ℚ) := by
    exact_mod_cast (Nat.div_add_mod N D).symm
  have hr : ((N % D : Nat) : ℚ) < D := by exact_mod_cast Nat.mod_lt N hD
  have hr0 : (0 : ℚ) ≤ ((N % D : Nat) : ℚ) := by positivity
  have hq : (N : ℚ) / D = ((N / D : Nat) : ℚ) + ((N % D : Nat) : ℚ) / D := by
    rw [hdm]; field_simp; ring
  rw [hq]
  unfold roundNearestEven
  rw [abs_le]
  split_ifs with h1 h2
  · have h1' : (2 : ℚ) * ((N % D : Nat) : ℚ) < D := by exact_mod_cast h1
    have : ((N % D : Nat) : ℚ) / D < 1 / 2 := by
      rw [div_lt_iff₀ hD']; linarith
    have : (0 : ℚ) ≤ ((N % D : Nat) : ℚ) / D := by positivity
    constructor <;> linarith
  · have h2' : (D : ℚ) < (2 : ℚ) * ((N % D : Nat) : ℚ) := by exact_mod_cast h2
    have : 1 / 2 < ((N % D : Nat) : ℚ) / D := by
      rw [lt_div_iff₀ hD']; linarith
    have : ((N % D : Nat) : ℚ) / D < 1 := by
      rw [div_lt_iff₀ hD']; linarith
    push_cast
    constructor <;> linarith
  · have he : 2 * (N % D) = D := by omega
    have he' : (2 : ℚ) * ((N % D : Nat) : ℚ) = D := by exact_mod_cast he
    have : ((N % D : Nat) : ℚ) / D = 1 / 2 := by
      rw [div_eq_iff hD'.ne']; linarith
    have hm : (N / D) % 2 = 0 ∨ (N / D) % 2 = 1 := by omega
    rw [this]
    rcases hm with hm | hm <;> rw [hm] <;> push_cast <;> constructor <;> linarith



theorem f32shift_spec (num den : Nat) (hn : 0 < num) (hd : 0 < den) :
    (2 : ℚ) ^ 23 ≤ (num : ℚ) / den * (2 : ℚ) ^ f32shift num den ∧
    (num : ℚ) / den * (2 : ℚ) ^ f32shift num den < 2 ^ 24 := by
  have hn' : (0 : ℚ) < num := by exact_mod_cast hn
  have hd' : (0 : ℚ) < den := by exact_mod_cast hd
  obtain ⟨hK1, hK2⟩ := ilog2_spec num hn.ne'
  obtain ⟨hL1, hL2⟩ := ilog2_spec den hd.ne'
  have hK1' : (2 : ℚ) ^ ilog2 num ≤ num := by exact_mod_cast hK1
  have hK2' : (num : ℚ) < 2 ^ (ilog2 num + 1) := by exact_mod_cast hK2
  have hL1' : (2 : ℚ) ^ ilog2 den ≤ den := by exact_mod_cast hL1
  have hL2' : (den : ℚ) < 2 ^ (ilog2 den + 1) := by exact_mod_cast hL2
  have h2K : (0 : ℚ) < 2 ^ ilog2 num := by positivity
  have h2L : (0 : ℚ) < 2 ^ ilog2 den := by positivity
  unfold f32shift
  set s0 : Int := 24 + (ilog2 den : Int) - (ilog2 num : Int) with hs0
  have hs0pow : (2 : ℚ) ^ s0 = 2 ^ 24 * 2 ^ ilog2 den / 2 ^ ilog2 num := by
    rw [hs0, zpow_sub₀ (by norm_num), zpow_add₀ (by norm_num)]
    simp [zpow_natCast]
    norm_num
  have hy0lo : (2 : ℚ) ^ 23 < (num : ℚ) / den * 2 ^ s0 := by
    rw [hs0pow]
    rw [div_mul_div_comm, lt_div_iff₀ (by positivity)]
    rw [pow_succ] at hL2'
    nlinarith
  have hy0hi : (num : ℚ) / den * (2 : ℚ) ^ s0 < 2 ^ 25 := by
    rw [hs0pow]
    rw [div_mul_div_comm, div_lt_iff₀ (by positivity)]
    rw [pow_succ] at hK2'
    nlinarith
  have hp2 := scalePair_den_pos num den s0 hd
  have hp2' : (0 : ℚ) < ((scalePair num den s0).2 : ℚ) := by exact_mod_cast hp2
  have hr := scalePair_ratio num den s0 hd
  have hsub : (2 : ℚ) ^ (s0 - 1) = 2 ^ s0 / 2 := by
    rw [zpow_sub₀ (by norm_num)]; simp
  simp only []
  split_ifs with h
  · rw [Nat.le_div_iff_mul_le hp2] at h
    have h' : (2 : ℚ) ^ 24 * ((scalePair num den s0).2 : ℚ) ≤ ((scalePair num den s0).1 : ℚ) := by
      exact_mod_cast h
    have h24 : (2 : ℚ) ^ 24 ≤ (num : ℚ) / den * 2 ^ s0 := by
      rw [← hr, le_div_iff₀ hp2']; exact h'
    rw [hsub]
    constructor
    · have : (num : ℚ) / den * (2 ^ s0 / 2) = ((num : ℚ) / den * 2 ^ s0) / 2 := by ring
      rw [this]; linarith
    · have : (num : ℚ) / den * (2 ^ s0 / 2) = ((num : ℚ) / den * 2 ^ s0) / 2 := by ring
      rw [this]; linarith
  · rw [Nat.le_div_iff_mul_le hp2, not_le] at h
    have h' : ((scalePair num den s0).1 : ℚ) < (2 : ℚ) ^ 24 * ((scalePair num den s0).2 : ℚ) := by
      exact_mod_cast h
    have h24 : (num : ℚ) / den * 2 ^ s0 < (2 : ℚ) ^ 24 := by
      rw [← hr, div_lt_iff₀ hp2']; exact h'
    exact ⟨hy0lo.le, h24⟩


theorem zpow_two_lt_imp (a b : Int) (h : (2 : ℚ) ^ a < 2 ^ b) : a < b := by
  by_contra hc
  push_neg at hc
  have : (2 : ℚ) ^ b ≤ 2 ^ a := zpow_le_zpow_right₀ (by norm_num) hc
  linarith

theorem f32round_spec (num den : Nat) (hn : 0 < num) (hd : 0 < den)
    (hlo : (2 : ℚ) ^ (-126 : ℤ) ≤ (num : ℚ) / den)
    (hhi : (num : ℚ) / den < (2 : ℚ) ^ (127 : ℤ)) :
    Approx (f32round num den) ((num : ℚ) / den) := by
  have hn' : (0 : ℚ) < num := by exact_mod_cast hn
  have hd' : (0 : ℚ) < den := by exact_mod_cast hd
  have hxpos : (0 : ℚ) < (num : ℚ) / den := div_pos hn' hd'
  obtain ⟨hy1, hy2⟩ := f32shift_spec num den hn hd
  set s := f32shift num den with hs
  have hspos : (0 : ℚ) < 2 ^ s := by positivity
  -- the shift is inside the normal range
  have hs149 : s ≤ 149 := by
    have h1 : (2 : ℚ) ^ s < 2 ^ (150 : ℤ) := by
      have h3 : (2 : ℚ) ^ (-126 : ℤ) * 2 ^ s < 2 ^ 24 :=
        lt_of_le_of_lt (mul_le_mul_of_nonneg_right hlo hspos.le) hy2
      have h4 : (2 : ℚ) ^ (150 : ℤ) = 2 ^ 24 * 2 ^ (126 : ℤ) := by norm_num
      have h5 : (2 : ℚ) ^ (-126 : ℤ) = 1 / 2 ^ (126 : ℤ) := by norm_num
      rw [h4]
      rw [h5] at h3
      have h6 : (0 : ℚ) < 2 ^ (126 : ℤ) := by positivity
      rw [one_div, inv_mul_lt_iff₀ h6] at h3
      linarith
    have := zpow_two_lt_imp s 150 h1
    omega
  have hs104 : -s < 104 := by
    have h1 : (2 : ℚ) ^ (-104 : ℤ) < 2 ^ s := by
      have h3 : (2 : ℚ) ^ 23 < 2 ^ (127 : ℤ) * 2 ^ s :=
        lt_of_le_of_lt hy1 (mul_lt_mul_of_pos_right hhi hspos)
      have h5 : (2 : ℚ) ^ (-104 : ℤ) = 2 ^ 23 / 2 ^ (127 : ℤ) := by norm_num
      rw [h5, div_lt_iff₀ (by positivity)]
      linarith
    have := zpow_two_lt_imp (-104) s h1
    omega
  have hmin : min s 149 = s := min_eq_left hs149
  have hp2 := scalePair_den_pos num den s hd
  have hr := scalePair_ratio num den s hd
  have herr := roundNearestEven_err (scalePair num den s).1 (scalePair num den s).2 hp2
  rw [hr] at herr
  unfold f32round
  rw [if_neg hn.ne']
  simp only [← hs, hmin]
  have hnot : ¬ (104 < -s ∨ (-s = 104 ∧ 2 ^ 24 ≤
      roundNearestEven (scalePair num den s).1 (scalePair num den s).2)) := by
    omega
  rw [if_neg hnot]
  refine ⟨_, _, rfl, ?_⟩
  set m := roundNearestEven (scalePair num den s).1 (scalePair num den s).2 with hm
  have hneg : (2 : ℚ) ^ (-s) = 1 / 2 ^ s := by
    rw [zpow_neg]; simp
  rw [hneg]
  have hkey : (m : ℚ) * (1 / 2 ^ s) - (num : ℚ) / den
      = ((m : ℚ) - (num : ℚ) / den * 2 ^ s) * (1 / 2 ^ s) := by
    field_simp
    ring
  rw [hkey, abs_mul, abs_of_pos (by positivity : (0 : ℚ) < 1 / 2 ^ s)]
  have hx23 : (2 : ℚ) ^ 23 * (1 / 2 ^ s) ≤ (num : ℚ) / den := by
    rw [mul_one_div, div_le_iff₀ hspos]; exact hy1
  have h1 : |(m : ℚ) - (num : ℚ) / den * 2 ^ s| * (1 / 2 ^ s) ≤ 1 / 2 * (1 / 2 ^ s) :=
    mul_le_mul_of_nonneg_right herr (by positivity)
  have h2 : (1 : ℚ) / 2 * (1 / 2 ^ s) ≤ (num : ℚ) / den / 2 ^ 24 := by
    rw [le_div_iff₀ (by positivity)]
    have : (1 : ℚ) / 2 * (1 / 2 ^ s) * 2 ^ 24 = 2 ^ 23 * (1 / 2 ^ s) := by ring
    rw [this]; exact hx23
  exact le_trans h1 h2


theorem scalePair_num_pos (num den : Nat) (s : Int) (hn : 0 < num) :
    0 < (scalePair num den s).1 := by
  cases s with
  | ofNat k => simp [scalePair]; exact hn
  | negSucc k => simpa [scalePair] using hn

theorem Approx.bounds {r : F32} {x : ℚ} (h : Approx r x) (hx : 0 < x) :
    ∃ m e, r = F32.fin m e ∧ 0 < m ∧
      x * (1 - 1 / 2 ^ 24) ≤ (m : ℚ) * (2 : ℚ) ^ e ∧
      (m : ℚ) * (2 : ℚ) ^ e ≤ x * (1 + 1 / 2 ^ 24) := by
  obtain ⟨m, e, hr, hb⟩ := h
  rw [abs_le] at hb
  have h2 : (0 : ℚ) < (2 : ℚ) ^ e := by positivity
  have hlo : x * (1 - 1 / 2 ^ 24) ≤ (m : ℚ) * (2 : ℚ) ^ e := by
    have : x * (1 - 1 / 2 ^ 24) = x - x / 2 ^ 24 := by ring
    rw [this]; linarith [hb.1]
  have hpos : (0 : ℚ) < (m : ℚ) * (2 : ℚ) ^ e := by
    have : (0 : ℚ) < x * (1 - 1 / 2 ^ 24) := by
      apply mul_pos hx; norm_num
    linarith
  have hm : 0 < m := by
    rcases Nat.eq_zero_or_pos m with h0 | h0
    · subst h0; simp at hpos
    · exact h0
  refine ⟨m, e, hr, hm, hlo, ?_⟩
  have : x * (1 + 1 / 2 ^ 24) = x + x / 2 ^ 24 := by ring
  rw [this]; linarith [hb.2]

theorem f32ofNat_spec (n : Nat) (hn : 0 < n) (hlt : n < 2 ^ 32) :
    Approx (f32ofNat n) (n : ℚ) := by
  have hn' : (1 : ℚ) ≤ n := by exact_mod_cast hn
  have hlt' : (n : ℚ) < 2 ^ 32 := by exact_mod_cast hlt
  have h := f32round_spec n 1 hn Nat.one_pos
    (by
      have : (2 : ℚ) ^ (-126 : ℤ) ≤ 1 := by norm_num
      simp only [Nat.cast_one, div_one]; linarith)
    (by
      have : (2 : ℚ) ^ 32 < (2 : ℚ) ^ (127 : ℤ) := by norm_num
      simp only [Nat.cast_one, div_one]; linarith)
  simpa [f32ofNat] using h

theorem f32div_spec (m1 m2 : Nat) (e1 e2 : Int) (h1 : 0 < m1) (h2 : 0 < m2)
    (hlo : (2 : ℚ) ^ (-126 : ℤ) ≤ ((m1 : ℚ) * 2 ^ e1) / ((m2 : ℚ) * 2 ^ e2))
    (hhi : ((m1 : ℚ) * 2 ^ e1) / ((m2 : ℚ) * 2 ^ e2) < (2 : ℚ) ^ (127 : ℤ)) :
    Approx (f32div (F32.fin m1 e1) (F32.fin m2 e2))
      (((m1 : ℚ) * 2 ^ e1) / ((m2 : ℚ) * 2 ^ e2)) := by
  have hr := scalePair_ratio m1 m2 (e1 - e2) h2
  have hval : ((m1 : ℚ) * 2 ^ e1) / ((m2 : ℚ) * 2 ^ e2)
      = ((scalePair m1 m2 (e1 - e2)).1 : ℚ) / ((scalePair m1 m2 (e1 - e2)).2 : ℚ) := by
    rw [hr, zpow_sub₀ (by norm_num)]
    have : (0 : ℚ) < 2 ^ e2 := by positivity
    have : (0 : ℚ) < (m2 : ℚ) := by exact_mod_cast h2
    field_simp
  unfold f32div
  simp only [if_neg h2.ne']
  rw [hval] at hlo hhi ⊢
  exact f32round_spec _ _ (scalePair_num_pos m1 m2 _ h1) (scalePair_den_pos m1 m2 _ h2) hlo hhi

theorem f32floor_spec (m : Nat) (e : Int) :
    (f32floor m e : ℚ) ≤ (m : ℚ) * (2 : ℚ) ^ e ∧
    (m : ℚ) * (2 : ℚ) ^ e < (f32floor m e : ℚ) + 1 := by
  cases e with
  | ofNat k =>
    simp only [f32floor, Int.ofNat_eq_coe, zpow_natCast]
    push_cast
    constructor <;> linarith
  | negSucc k =>
    simp only [f32floor, zpow_negSucc]
    have hd : 0 < 2 ^ (k + 1) := by positivity
    have hd' : (0 : ℚ) < (2 : ℚ) ^ (k + 1) := by positivity
    have hle : m / 2 ^ (k + 1) * 2 ^ (k + 1) ≤ m := Nat.div_mul_le_self m _
    have hlt : m < (m / 2 ^ (k + 1) + 1) * 2 ^ (k + 1) := by
      have := Nat.lt_succ_iff.mpr (le_refl (m / 2 ^ (k + 1)))
      rw [Nat.div_lt_iff_lt_mul hd] at this
      exact this
    have hle' : ((m / 2 ^ (k + 1) : Nat) : ℚ) * 2 ^ (k + 1) ≤ m := by exact_mod_cast hle
    have hlt' : (m : ℚ) < (((m / 2 ^ (k + 1) : Nat) : ℚ) + 1) * 2 ^ (k + 1) := by
      exact_mod_cast hlt
    constructor
    · rw [← div_eq_mul_inv, le_div_iff₀ hd']
      exact hle'
    · rw [← div_eq_mul_inv, div_lt_iff₀ hd']
      exact hlt'


theorem ratio_in_range (a b : ℚ) (ha : 1 / 2 ^ 40 ≤ a) (ha' : a ≤ 2 ^ 40)
    (hb : 1 / 2 ^ 40 ≤ b) (hb' : b ≤ 2 ^ 40) :
    (2 : ℚ) ^ (-126 : ℤ) ≤ a / b ∧ a / b < (2 : ℚ) ^ (127 : ℤ) := by
  have hbpos : 0 < b := lt_of_lt_of_le (by norm_num) hb
  have hapos : 0 < a := lt_of_lt_of_le (by norm_num) ha
  have hc1 : (2 : ℚ) ^ (-126 : ℤ) = 1 / 2 ^ 126 := by norm_num
  have hc2 : (2 : ℚ) ^ (127 : ℤ) = 2 ^ 127 := by norm_num
  rw [hc1, hc2]
  constructor
  · rw [le_div_iff₀ hbpos]
    have h1 : (1 : ℚ) / 2 ^ 126 * b ≤ 1 / 2 ^ 126 * 2 ^ 40 :=
      mul_le_mul_of_nonneg_left hb' (by positivity)
    have h2 : (1 : ℚ) / 2 ^ 126 * 2 ^ 40 ≤ 1 / 2 ^ 40 := by norm_num
    linarith
  · rw [div_lt_iff₀ hbpos]
    have h1 : (2 : ℚ) ^ 127 * (1 / 2 ^ 40) ≤ (2 : ℚ) ^ 127 * b :=
      mul_le_mul_of_nonneg_left hb (by positivity)
    have h2 : (2 : ℚ) ^ 40 < (2 : ℚ) ^ 127 * (1 / 2 ^ 40) := by norm_num
    linarith

theorem upper_arith (w f : ℚ) (hf : 0 ≤ f)
    (h : w * (1 - 1 / 2 ^ 24) * (1 - 1 / 2 ^ 24) ≤ (1 + 1 / 2 ^ 24) * (f * (1 + 1 / 2 ^ 24))) :
    2 ^ 21 * w ≤ (2 ^ 21 + 1) * f := by
  linarith

theorem lower_arith (w f : ℚ) (hf : 0 ≤ f)
    (h : (1 - 1 / 2 ^ 24) * (f * (1 - 1 / 2 ^ 24)) < w * (1 + 1 / 2 ^ 24) * (1 + 1 / 2 ^ 24)) :
    (2 ^ 21 - 1) * f < 2 ^ 21 * w := by
  linarith

set_option maxHeartbeats 1000000 in
theorem freqOf_spec (T F : Nat) (hT : 0 < T) (hT32 : T < 2 ^ 32) (hF : 0 < F)
    (hF31 : F < 2 ^ 31) :
    ∃ v, freqOf T F = some v ∧ 2 ^ 21 * (v * T) ≤ (2 ^ 21 + 1) * F ∧
      (2 ^ 21 - 1) * F < 2 ^ 21 * ((v + 1) * T) := by
  have hTq : (1 : ℚ) ≤ T := by exact_mod_cast hT
  have hTq' : (T : ℚ) < 2 ^ 32 := by exact_mod_cast hT32
  have hFq : (1 : ℚ) ≤ F := by exact_mod_cast hF
  have hFq' : (F : ℚ) < 2 ^ 31 := by exact_mod_cast hF31
  have hF32 : F < 2 ^ 32 := lt_trans hF31 (by norm_num)
  obtain ⟨ma, ea, ha, hma, halo, hahi⟩ :=
    (f32ofNat_spec T hT hT32).bounds (by linarith)
  obtain ⟨mb, eb, hb, hmb, hblo, hbhi⟩ :=
    (f32ofNat_spec F hF hF32).bounds (by linarith)
  set va : ℚ := (ma : ℚ) * 2 ^ ea with hva
  set vb : ℚ := (mb : ℚ) * 2 ^ eb with hvb
  have hva1 : 1 / 2 ≤ va := by
    have : (T : ℚ) * (1 - 1 / 2 ^ 24) ≥ 1 * (1 - 1 / 2 ^ 24) :=
      mul_le_mul_of_nonneg_right hTq (by norm_num)
    norm_num at this ⊢; linarith
  have hva2 : va ≤ 2 ^ 33 := by
    have : (T : ℚ) * (1 + 1 / 2 ^ 24) ≤ 2 ^ 32 * (1 + 1 / 2 ^ 24) :=
      mul_le_mul_of_nonneg_right hTq'.le (by norm_num)
    norm_num at this ⊢; linarith
  have hvb1 : 1 / 2 ≤ vb := by
    have : (F : ℚ) * (1 - 1 / 2 ^ 24) ≥ 1 * (1 - 1 / 2 ^ 24) :=
      mul_le_mul_of_nonneg_right hFq (by norm_num)
    norm_num at this ⊢; linarith
  have hvb2 : vb ≤ 2 ^ 33 := by
    have : (F : ℚ) * (1 + 1 / 2 ^ 24) ≤ 2 ^ 31 * (1 + 1 / 2 ^ 24) :=
      mul_le_mul_of_nonneg_right hFq'.le (by norm_num)
    norm_num at this ⊢; linarith
  have hvapos : 0 < va := lt_of_lt_of_le (by norm_num) hva1
  have hvbpos : 0 < vb := lt_of_lt_of_le (by norm_num) hvb1
  -- the period `periodd = (float)T / (float)F`
  obtain ⟨hr1, hr2⟩ := ratio_in_range va vb
    (le_trans (by norm_num) hva1) (le_trans hva2 (by norm_num))
    (le_trans (by norm_num) hvb1) (le_trans hvb2 (by norm_num))
  have hp0 := f32div_spec ma mb ea eb hma hmb hr1 hr2
  obtain ⟨mp, ep, hp, hmp, hplo, hphi⟩ := hp0.bounds (div_pos hvapos hvbpos)
  rw [← hva, ← hvb] at hplo hphi
  set vp : ℚ := (mp : ℚ) * 2 ^ ep with hvp
  have hplo' : va * (1 - 1 / 2 ^ 24) ≤ vp * vb := by
    have := mul_le_mul_of_nonneg_right hplo hvbpos.le
    have e : va / vb * (1 - 1 / 2 ^ 24) * vb = va * (1 - 1 / 2 ^ 24) := by
      field_simp
      ring
    linarith
  have hphi' : vp * vb ≤ va * (1 + 1 / 2 ^ 24) := by
    have := mul_le_mul_of_nonneg_right hphi hvbpos.le
    have e : va / vb * (1 + 1 / 2 ^ 24) * vb = va * (1 + 1 / 2 ^ 24) := by
      field_simp
      ring
    linarith
  have hvppos : 0 < vp := by positivity
  have hvp1 : 1 / 2 ^ 40 ≤ vp := by
    have h1 : vp * vb ≤ vp * 2 ^ 33 := mul_le_mul_of_nonneg_left hvb2 hvppos.le
    have h2 : (1 / 2 : ℚ) * (1 - 1 / 2 ^ 24) ≤ va * (1 - 1 / 2 ^ 24) :=
      mul_le_mul_of_nonneg_right hva1 (by norm_num)
    norm_num at h1 h2 hplo' ⊢
    linarith
  have hvp2 : vp ≤ 2 ^ 40 := by
    have h1 : vp * (1 / 2) ≤ vp * vb := mul_le_mul_of_nonneg_left hvb1 hvppos.le
    have h2 : va * (1 + 1 / 2 ^ 24) ≤ (2 ^ 33 : ℚ) * (1 + 1 / 2 ^ 24) :=
      mul_le_mul_of_nonneg_right hva2 (by norm_num)
    norm_num at h1 h2 hphi' ⊢
    linarith
  -- the reciprocal `1 / periodd`
  have hone : f32ofNat 1 = F32.fin 8388608 (-23) := by decide
  have hone' : (8388608 : ℚ) * (2 : ℚ) ^ (-23 : ℤ) = 1 := by norm_num
  have hq0 := f32div_spec 8388608 mp (-23) ep (by norm_num) hmp
  simp only [Nat.cast_ofNat, hone', ← hvp] at hq0
  obtain ⟨hs1, hs2⟩ := ratio_in_range 1 vp (by norm_num) (by norm_num) hvp1 hvp2
  obtain ⟨mr, er, hr, hmr, hrlo, hrhi⟩ := (hq0 hs1 hs2).bounds (div_pos one_pos hvppos)
  set vr : ℚ := (mr : ℚ) * 2 ^ er with hvr
  have hvrpos : 0 < vr := by positivity
  have hrlo' : 1 - 1 / 2 ^ 24 ≤ vr * vp := by
    have := mul_le_mul_of_nonneg_right hrlo hvppos.le
    have e : 1 / vp * (1 - 1 / 2 ^ 24) * vp = 1 - 1 / 2 ^ 24 := by
      field_simp
      ring
    linarith
  have hrhi' : vr * vp ≤ 1 + 1 / 2 ^ 24 := by
    have := mul_le_mul_of_nonneg_right hrhi hvppos.le
    have e : 1 / vp * (1 + 1 / 2 ^ 24) * vp = 1 + 1 / 2 ^ 24 := by
      field_simp
      ring
    linarith
  obtain ⟨hfl1, hfl2⟩ := f32floor_spec mr er
  rw [← hvr] at hfl1 hfl2
  set v := f32floor mr er with hv
  have hu : (0 : ℚ) ≤ 1 - 1 / 2 ^ 24 := by norm_num
  have hu' : (0 : ℚ) ≤ 1 + 1 / 2 ^ 24 := by norm_num
  have hTpos : (0 : ℚ) ≤ T := by linarith
  have hFpos : (0 : ℚ) ≤ F := by linarith
  have hvq : (0 : ℚ) ≤ v := by positivity
  -- upper chain
  have hU : (v : ℚ) * ((T : ℚ) * (1 - 1 / 2 ^ 24)) * (1 - 1 / 2 ^ 24)
      ≤ (1 + 1 / 2 ^ 24) * ((F : ℚ) * (1 + 1 / 2 ^ 24)) := by
    calc (v : ℚ) * ((T : ℚ) * (1 - 1 / 2 ^ 24)) * (1 - 1 / 2 ^ 24)
        ≤ vr * va * (1 - 1 / 2 ^ 24) := by gcongr
      _ = vr * (va * (1 - 1 / 2 ^ 24)) := by ring
      _ ≤ vr * (vp * vb) := by gcongr
      _ = (vr * vp) * vb := by ring
      _ ≤ (1 + 1 / 2 ^ 24) * ((F : ℚ) * (1 + 1 / 2 ^ 24)) := by gcongr
  have hL : (1 - 1 / 2 ^ 24) * ((F : ℚ) * (1 - 1 / 2 ^ 24))
      < ((v : ℚ) + 1) * ((T : ℚ) * (1 + 1 / 2 ^ 24)) * (1 + 1 / 2 ^ 24) := by
    have hTu : (0 : ℚ) < (T : ℚ) * (1 + 1 / 2 ^ 24) := by positivity
    calc (1 - 1 / 2 ^ 24) * ((F : ℚ) * (1 - 1 / 2 ^ 24))
        ≤ (vr * vp) * vb := by gcongr
      _ = vr * (vp * vb) := by ring
      _ ≤ vr * (va * (1 + 1 / 2 ^ 24)) := by gcongr
      _ = vr * va * (1 + 1 / 2 ^ 24) := by ring
      _ ≤ vr * ((T : ℚ) * (1 + 1 / 2 ^ 24)) * (1 + 1 / 2 ^ 24) := by gcongr
      _ < ((v : ℚ) + 1) * ((T : ℚ) * (1 + 1 / 2 ^ 24)) * (1 + 1 / 2 ^ 24) := by gcongr
  have hUq : (2 : ℚ) ^ 21 * ((v : ℚ) * (T : ℚ)) ≤ (2 ^ 21 + 1) * (F : ℚ) := by
    apply upper_arith _ _ hFpos
    have e : (v : ℚ) * (T : ℚ) * (1 - 1 / 2 ^ 24) * (1 - 1 / 2 ^ 24)
        = (v : ℚ) * ((T : ℚ) * (1 - 1 / 2 ^ 24)) * (1 - 1 / 2 ^ 24) := by ring
    rw [e]; exact hU
  have hLq : ((2 : ℚ) ^ 21 - 1) * (F : ℚ) < 2 ^ 21 * (((v : ℚ) + 1) * (T : ℚ)) := by
    apply lower_arith _ _ hFpos
    have e : ((v : ℚ) + 1) * (T : ℚ) * (1 + 1 / 2 ^ 24) * (1 + 1 / 2 ^ 24)
        = ((v : ℚ) + 1) * ((T : ℚ) * (1 + 1 / 2 ^ 24)) * (1 + 1 / 2 ^ 24) := by ring
    rw [e]; exact hL
  have hUn : 2 ^ 21 * (v * T) ≤ (2 ^ 21 + 1) * F := by exact_mod_cast hUq
  have hLn : (2 ^ 21 - 1) * F < 2 ^ 21 * ((v + 1) * T) := by
    have h : (2097151 : ℚ) * (F : ℚ) < 2097152 * (((v : ℚ) + 1) * (T : ℚ)) := by
      linarith [hLq]
    have h' : 2097151 * F < 2097152 * ((v + 1) * T) := by exact_mod_cast h
    norm_num
    exact h'
  have hv32 : v < 2 ^ 32 := by
    have hvT : v ≤ v * T := Nat.le_mul_of_pos_right v hT
    generalize v * T = w at hUn hvT
    omega
  refine ⟨v, ?_, hUn, hLn⟩
  unfold freqOf
  rw [ha, hb, hp, hone, hr]
  simp only [f32toU32]
  rw [if_pos hv32]


/-! ## Register bit operations -/

theorem EXTI_PR_store_lor (pr m : Nat) : EXTI_PR_store pr (pr ||| m) = 0 := by
  unfold EXTI_PR_store
  apply Nat.eq_of_testBit_eq
  intro i
  simp only [Nat.testBit_xor, Nat.testBit_and, Nat.testBit_or, Nat.zero_testBit]
  cases pr.testBit i <;> cases m.testBit i <;> rfl

theorem lor_CEN_land_CEN (x : Nat) : (x ||| TIM_CR1_CEN) &&& TIM_CR1_CEN = TIM_CR1_CEN := by
  apply Nat.eq_of_testBit_eq
  intro i
  simp only [Nat.testBit_and, Nat.testBit_or]
  cases x.testBit i <;> simp

theorem land_not32_CEN (x : Nat) : (x &&& not32 TIM_CR1_CEN) &&& TIM_CR1_CEN = 0 := by
  rw [Nat.land_assoc]
  have : not32 TIM_CR1_CEN &&& TIM_CR1_CEN = 0 := by decide
  rw [this, Nat.and_zero]

theorem testBit_lor_IM2 (x i : Nat) :
    (x ||| EXTI_IMR_IM2).testBit i = (x.testBit i || decide (i = 2)) := by
  rw [Nat.testBit_or]
  congr 1
  have : EXTI_IMR_IM2 = 2 ^ 2 := by decide
  rw [this, Nat.testBit_two_pow]
  simp [eq_comm]

theorem testBit_land_not32_IM2 (x i : Nat) (hi : i < 32) :
    (x &&& not32 EXTI_IMR_IM2).testBit i = (x.testBit i && !decide (i = 2)) := by
  rw [Nat.testBit_and]
  congr 1
  unfold not32 EXTI_IMR_IM2
  interval_cases i <;> decide

/-! ## The button block and the edge blocks -/

theorem EXTI0_1_button_none (s : State) (h : s.EXTI_PR &&& EXTI_PR_PR0 = 0) :
    EXTI0_1_button s = s := by
  simp [EXTI0_1_button, h]

theorem EXTI0_1_button_pending (s : State) (h : s.EXTI_PR &&& EXTI_PR_PR0 ≠ 0) :
    EXTI0_1_button s =
      { s with
        input_line := if s.input_line = 1 then 2 else 1
        EXTI_IMR := if s.input_line = 1 then s.EXTI_IMR ||| EXTI_IMR_IM2
                    else s.EXTI_IMR &&& not32 EXTI_IMR_IM2
        EXTI_PR := 0 } := by
  unfold EXTI0_1_button
  rw [if_pos h]
  by_cases h1 : s.input_line = 1 <;> simp [h1, EXTI_PR_store_lor]

theorem EXTI0_1_edge_none (s : State) (h : s.EXTI_PR = 0) : EXTI0_1_edge s = some s := by
  simp [EXTI0_1_edge, h]

theorem EXTI0_1_IRQHandler_button (s : State) (h : s.EXTI_PR &&& EXTI_PR_PR0 ≠ 0) :
    EXTI0_1_IRQHandler s = some
      { s with
        input_line := if s.input_line = 1 then 2 else 1
        EXTI_IMR := if s.input_line = 1 then s.EXTI_IMR ||| EXTI_IMR_IM2
                    else s.EXTI_IMR &&& not32 EXTI_IMR_IM2
        EXTI_PR := 0 } := by
  unfold EXTI0_1_IRQHandler
  rw [EXTI0_1_button_pending s h]
  exact EXTI0_1_edge_none _ rfl

theorem handler_first_edge (s : State) (l : Line) (hl : l ≠ Line.button)
    (hact : s.input_line = l.number) (hpend : s.EXTI_PR &&& l.flag ≠ 0)
    (hbtn : l = Line.line1 → s.EXTI_PR &&& EXTI_PR_PR0 = 0)
    (hidle : s.edge_count = 0) :
    l.handler s = some { s with
      TIM2_CNT := 0, TIM2_CR1 := s.TIM2_CR1 ||| TIM_CR1_CEN, edge_count := 1, EXTI_PR := 0 } := by
  cases l with
  | button => exact absurd rfl hl
  | line1 =>
    have hb := hbtn rfl
    simp only [Line.flag] at hpend
    simp only [Line.number] at hact
    simp only [Line.handler, EXTI0_1_IRQHandler, EXTI0_1_button_none s hb]
    simp [EXTI0_1_edge, hpend, hact, hidle, EXTI_PR_store_lor]
  | line2 =>
    simp only [Line.flag] at hpend
    simp only [Line.number] at hact
    simp [Line.handler, EXTI2_3_IRQHandler, hpend, hact, hidle, EXTI_PR_store_lor]

theorem handler_second_edge (s : State) (l : Line) (hl : l ≠ Line.button)
    (hact : s.input_line = l.number) (hpend : s.EXTI_PR &&& l.flag ≠ 0)
    (hbtn : l = Line.line1 → s.EXTI_PR &&& EXTI_PR_PR0 = 0)
    (harmed : s.edge_count ≠ 0) (v : Nat)
    (hv : freqOf s.TIM2_CNT s.SystemCoreClock = some v) :
    l.handler s = some { s with
      TIM2_CR1 := s.TIM2_CR1 &&& not32 TIM_CR1_CEN, Freq := v, edge_count := 0, EXTI_PR := 0 } := by
  unfold freqOf at hv
  cases l with
  | button => exact absurd rfl hl
  | line1 =>
    have hb := hbtn rfl
    simp only [Line.flag] at hpend
    simp only [Line.number] at hact
    simp only [Line.handler, EXTI0_1_IRQHandler, EXTI0_1_button_none s hb]
    simp [EXTI0_1_edge, hpend, hact, harmed, hv, EXTI_PR_store_lor]
  | line2 =>
    simp only [Line.flag] at hpend
    simp only [Line.number] at hact
    simp [Line.handler, EXTI2_3_IRQHandler, hpend, hact, harmed, hv, EXTI_PR_store_lor]


/-! ## Edge-timing capture -/

/-- C1 (counterexample): with an edge pending on the active line 1, counter
reading 48000 and a 48 MHz counting clock, the handler stores 999, while
`floor(F_clk / T)` is 1000: the single-precision quotient `48000 / 48000000` is
`8589935 * 2 ^ -33`, just above 0.001; its reciprocal 999.99995... rounds to
the float `16383999 * 2 ^ -14 = 999.99993896484375`, which truncates to 999.
And for `T = 1` at a clock of `2 ^ 32 - 1` the float result is `2 ^ 32`, whose
conversion to `unsigned int` is undefined. -/
theorem second_edge_not_exact_quotient :
    armedLine1.edge_count = 1 ∧ armedLine1.input_line = 1 ∧
    armedLine1.EXTI_PR = EXTI_PR_PR1 ∧
    f32div (f32ofNat 48000) (f32ofNat 48000000) = F32.fin 8589935 (-33) ∧
    f32div (f32ofNat 1) (F32.fin 8589935 (-33)) = F32.fin 16383999 (-14) ∧
    Option.map State.Freq (EXTI0_1_IRQHandler armedLine1) = some 999 ∧
    armedLine1.SystemCoreClock / armedLine1.TIM2_CNT = 1000 ∧
    EXTI0_1_IRQHandler { armedLine1 with TIM2_CNT := 1, SystemCoreClock := 4294967295 }
      = none := by
  decide

/-- C1 (amended): when an edge is pending (`edge_count ≠ 0`) and a rising edge
arrives on the active line with counter reading `T`, `0 < T < 2 ^ 32`, and
counting clock `0 < F < 2 ^ 31`, the handler of either line stops the counter
(clears the enable bit), clears `edge_count` and stores in `Freq` the unsigned
truncation `v` of the single-precision value of `1 / (T / F)`; `v` agrees with
`F / T` up to single-precision rounding:
`v * T ≤ F * (1 + 2 ^ -21)` and `F * (1 - 2 ^ -21) < (v + 1) * T`. -/
theorem second_edge_stores_rounded_frequency (s : State) (l : Line)
    (hl : l ≠ Line.button) (hact : s.input_line = l.number)
    (hpend : s.EXTI_PR &&& l.flag ≠ 0)
    (hbtn : l = Line.line1 → s.EXTI_PR &&& EXTI_PR_PR0 = 0)
    (harmed : s.edge_count ≠ 0)
    (hT : 0 < s.TIM2_CNT) (hT32 : s.TIM2_CNT < 2 ^ 32)
    (hF : 0 < s.SystemCoreClock) (hF31 : s.SystemCoreClock < 2 ^ 31) :
    ∃ v, l.handler s = some { s with
        TIM2_CR1 := s.TIM2_CR1 &&& not32 TIM_CR1_CEN, Freq := v, edge_count := 0,
        EXTI_PR := 0 } ∧
      (s.TIM2_CR1 &&& not32 TIM_CR1_CEN) &&& TIM_CR1_CEN = 0 ∧
      freqOf s.TIM2_CNT s.SystemCoreClock = some v ∧
      2 ^ 21 * (v * s.TIM2_CNT) ≤ (2 ^ 21 + 1) * s.SystemCoreClock ∧
      (2 ^ 21 - 1) * s.SystemCoreClock < 2 ^ 21 * ((v + 1) * s.TIM2_CNT) := by
  obtain ⟨v, hv, h1, h2⟩ := freqOf_spec s.TIM2_CNT s.SystemCoreClock hT hT32 hF hF31
  exact ⟨v, handler_second_edge s l hl hact hpend hbtn harmed v hv,
    land_not32_CEN _, hv, h1, h2⟩

/-- C1 (witness): the amended statement at the armed line-1 state, counter
reading 48000, clock 48 MHz. -/
theorem second_edge_stores_rounded_frequency_witness :
    ∃ v, Line.line1.handler armedLine1 = some { armedLine1 with
        TIM2_CR1 := armedLine1.TIM2_CR1 &&& not32 TIM_CR1_CEN, Freq := v, edge_count := 0,
        EXTI_PR := 0 } ∧
      (armedLine1.TIM2_CR1 &&& not32 TIM_CR1_CEN) &&& TIM_CR1_CEN = 0 ∧
      freqOf armedLine1.TIM2_CNT armedLine1.SystemCoreClock = some v ∧
      2 ^ 21 * (v * armedLine1.TIM2_CNT) ≤ (2 ^ 21 + 1) * armedLine1.SystemCoreClock ∧
      (2 ^ 21 - 1) * armedLine1.SystemCoreClock < 2 ^ 21 * ((v + 1) * armedLine1.TIM2_CNT) :=
  second_edge_stores_rounded_frequency armedLine1 Line.line1 (by decide) (by decide)
    (by decide) (by decide) (by decide) (by decide) (by decide) (by decide) (by decide)

/-- C2 (counterexample): no edge is pending (`edge_count = 0`), line 1 is the
measured line and a rising edge on it is pending, together with the button.
`EXTI0_1_IRQHandler` services the button first: line 2 becomes the measured
line and the capture is not armed: `edge_count` stays 0, the enable bit stays
clear, the counter register keeps its value 77, and `input_line` changes. This
does not hang on how the button's flag is cleared: entered after the toggle
with only the line-1 flag pending, the handler finds line 1 not measured and
does not arm either. -/
theorem first_edge_behind_button_not_armed :
    buttonAndIdleLine1.edge_count = 0 ∧
    buttonAndIdleLine1.input_line = Line.line1.number ∧
    buttonAndIdleLine1.EXTI_PR &&& Line.line1.flag ≠ 0 ∧
    Line.line1.handler buttonAndIdleLine1
      = some { buttonAndIdleLine1 with input_line := 2, EXTI_PR := 0 } ∧
    Option.map (fun t => (t.edge_count, t.TIM2_CR1 &&& TIM_CR1_CEN, t.TIM2_CNT, t.input_line))
      (Line.line1.handler buttonAndIdleLine1) = some (0, 0, 77, 2) ∧
    Option.map (fun t => (t.edge_count, t.TIM2_CR1 &&& TIM_CR1_CEN, t.TIM2_CNT, t.input_line))
      (Line.line1.handler { buttonAndIdleLine1 with input_line := 2, EXTI_PR := EXTI_PR_PR1 })
      = some (0, 0, 77, 2) := by
  decide

/-- C2 (amended): when no edge is pending (`edge_count = 0`) and a rising edge
arrives on the active line, for line 1 (whose handler serves the button first)
with no button event pending, the handler of either line sets the counter
register to zero, sets the counter's enable bit and sets `edge_count = 1`;
`Freq`, `Res` and `input_line` are unchanged. -/
theorem first_edge_arms_counter (s : State) (l : Line)
    (hl : l ≠ Line.button) (hact : s.input_line = l.number)
    (hpend : s.EXTI_PR &&& l.flag ≠ 0)
    (hbtn : l = Line.line1 → s.EXTI_PR &&& EXTI_PR_PR0 = 0)
    (hidle : s.edge_count = 0) :
    ∃ t, l.handler s = some t ∧ t.TIM2_CNT = 0 ∧
      t.TIM2_CR1 &&& TIM_CR1_CEN = TIM_CR1_CEN ∧ t.edge_count = 1 ∧
      t.Freq = s.Freq ∧ t.Res = s.Res ∧ t.input_line = s.input_line := by
  refine ⟨_, handler_first_edge s l hl hact hpend hbtn hidle, rfl, ?_, rfl, rfl, rfl, rfl⟩
  exact lor_CEN_land_CEN _

/-- C2 (witness): the idle line-1 state with an edge pending and no button
event. -/
theorem first_edge_arms_counter_witness :
    ∃ t, Line.line1.handler idleLine1 = some t ∧ t.TIM2_CNT = 0 ∧
      t.TIM2_CR1 &&& TIM_CR1_CEN = TIM_CR1_CEN ∧ t.edge_count = 1 ∧
      t.Freq = idleLine1.Freq ∧ t.Res = idleLine1.Res ∧
      t.input_line = idleLine1.input_line :=
  first_edge_arms_counter idleLine1 Line.line1 (by decide) (by decide) (by decide)
    (by decide) (by decide)

/-! ## Channel selector -/

/-- C4 (counterexample): after the button event that makes line 2 the active
line, the mask bit of EXTI1, the edge source of the other line, is still set. -/
theorem toggle_leaves_line1_unmasked :
    Option.map (fun t => (t.input_line, t.EXTI_IMR &&& EXTI_IMR_IM1, t.EXTI_IMR &&& EXTI_IMR_IM2))
      (step (initState 48000000) (Event.rise Line.button)) = some (2, EXTI_IMR_IM1, EXTI_IMR_IM2) := by
  decide

/-- C4 (amended): a channel-toggle (button) event flips `input_line` (1 becomes
2, anything else becomes 1); afterwards the mask bit of EXTI2 is set exactly
when line 2 is the newly active line, and the mask bits of EXTI1 and of the
button line are unchanged (EXTI1 is never masked). -/
theorem toggle_flips_line_and_EXTI2_mask (s : State)
    (hbtn : s.EXTI_PR &&& EXTI_PR_PR0 ≠ 0) :
    ∃ t, EXTI0_1_IRQHandler s = some t ∧
      t.input_line = (if s.input_line = 1 then 2 else 1) ∧
      t.EXTI_IMR.testBit 2 = decide (t.input_line = 2) ∧
      t.EXTI_IMR.testBit 1 = s.EXTI_IMR.testBit 1 ∧
      t.EXTI_IMR.testBit 0 = s.EXTI_IMR.testBit 0 := by
  refine ⟨_, EXTI0_1_IRQHandler_button s hbtn, rfl, ?_, ?_, ?_⟩
  · by_cases h : s.input_line = 1
    · simp only [h, if_true, testBit_lor_IM2]; simp
    · simp only [h, if_false]; rw [testBit_land_not32_IM2 _ _ (by norm_num)]; simp
  · by_cases h : s.input_line = 1
    · simp only [h, if_true, testBit_lor_IM2]; simp
    · simp only [h, if_false]; rw [testBit_land_not32_IM2 _ _ (by norm_num)]; simp
  · by_cases h : s.input_line = 1
    · simp only [h, if_true, testBit_lor_IM2]; simp
    · simp only [h, if_false]; rw [testBit_land_not32_IM2 _ _ (by norm_num)]; simp

/-- C4 (witness): the armed line-1 state with the button pending. -/
theorem toggle_flips_line_and_EXTI2_mask_witness :
    ∃ t, EXTI0_1_IRQHandler armedButton = some t ∧
      t.input_line = (if armedButton.input_line = 1 then 2 else 1) ∧
      t.EXTI_IMR.testBit 2 = decide (t.input_line = 2) ∧
      t.EXTI_IMR.testBit 1 = armedButton.EXTI_IMR.testBit 1 ∧
      t.EXTI_IMR.testBit 0 = armedButton.EXTI_IMR.testBit 0 :=
  toggle_flips_line_and_EXTI2_mask armedButton (by decide)


/-! ## Two edges one millisecond apart -/

theorem flag_land_self (l : Line) : (0 ||| l.flag) &&& l.flag ≠ 0 := by
  cases l <;> decide

theorem freqOf_1000_1MHz : freqOf 1000 1000000 = some 999 := by decide

/-- C5: from the idle state (`edge_count = 0`, nothing pending) with a counting
clock of 1 MHz, a rising edge on the active line, 1000 counter ticks (1 ms) and
a second rising edge on the active line leave `Freq = 999`, which is within 1
of 1000 Hz, and the machine idle again (`edge_count = 0`, counter stopped). -/
theorem two_edges_one_ms_apart (s : State) (l : Line) (hl : l ≠ Line.button)
    (hact : s.input_line = l.number) (hidle : s.edge_count = 0)
    (hclk : s.SystemCoreClock = 1000000) (hpr : s.EXTI_PR = 0)
    (hmask : s.EXTI_IMR &&& l.flag ≠ 0) :
    ∃ t, run s [Event.rise l, Event.ticks 1000, Event.rise l] = some t ∧
      t.Freq = 999 ∧ 1000 - 1 ≤ t.Freq ∧ t.Freq ≤ 1000 + 1 ∧
      t.edge_count = 0 ∧ t.TIM2_CR1 &&& TIM_CR1_CEN = 0 := by
  have hb : l = Line.line1 → (0 ||| l.flag) &&& EXTI_PR_PR0 = 0 := by
    intro h; subst h; decide
  -- first edge: the counter is cleared and started
  have e1 : riseEvent l s = some
      { s with TIM2_CNT := 0, TIM2_CR1 := s.TIM2_CR1 ||| TIM_CR1_CEN, edge_count := 1,
               EXTI_PR := 0 } := by
    unfold riseEvent
    rw [if_pos hmask]
    exact handler_first_edge { s with EXTI_PR := s.EXTI_PR ||| l.flag } l hl hact
      (by simpa [hpr] using flag_land_self l) (by simpa [hpr] using hb) hidle
  -- 1000 ticks while the counter is enabled
  have e2 : countTicks 1000
      { s with TIM2_CNT := 0, TIM2_CR1 := s.TIM2_CR1 ||| TIM_CR1_CEN, edge_count := 1,
               EXTI_PR := 0 } =
      { s with TIM2_CNT := 1000, TIM2_CR1 := s.TIM2_CR1 ||| TIM_CR1_CEN, edge_count := 1,
               EXTI_PR := 0 } := by
    unfold countTicks
    rw [if_pos (by rw [lor_CEN_land_CEN]; decide)]
    simp
  -- second edge: the counter is stopped and the frequency stored
  have e3 : riseEvent l
      { s with TIM2_CNT := 1000, TIM2_CR1 := s.TIM2_CR1 ||| TIM_CR1_CEN, edge_count := 1,
               EXTI_PR := 0 } = some
      { s with TIM2_CNT := 1000,
               TIM2_CR1 := (s.TIM2_CR1 ||| TIM_CR1_CEN) &&& not32 TIM_CR1_CEN,
               Freq := 999, edge_count := 0, EXTI_PR := 0 } := by
    unfold riseEvent
    rw [if_pos hmask]
    exact handler_second_edge
      { s with TIM2_CNT := 1000, TIM2_CR1 := s.TIM2_CR1 ||| TIM_CR1_CEN, edge_count := 1,
               EXTI_PR := 0 ||| l.flag } l hl hact (flag_land_self l) hb (by simp) 999
      (by simpa [hclk] using freqOf_1000_1MHz)
  have key : run s [Event.rise l, Event.ticks 1000, Event.rise l] = some
      { s with TIM2_CNT := 1000,
               TIM2_CR1 := (s.TIM2_CR1 ||| TIM_CR1_CEN) &&& not32 TIM_CR1_CEN,
               Freq := 999, edge_count := 0, EXTI_PR := 0 } := by
    simp only [run, step, e1, e2, e3, Option.some_bind, Option.bind_eq_bind]
  exact ⟨_, key, rfl, by simp, by simp, rfl, land_not32_CEN _⟩

/-- C5 (witness): the initial state of the firmware clocked at 1 MHz, line 1. -/
theorem two_edges_one_ms_apart_witness :
    ∃ t, run (initState 1000000)
        [Event.rise Line.line1, Event.ticks 1000, Event.rise Line.line1] = some t ∧
      t.Freq = 999 ∧ 1000 - 1 ≤ t.Freq ∧ t.Freq ≤ 1000 + 1 ∧
      t.edge_count = 0 ∧ t.TIM2_CR1 &&& TIM_CR1_CEN = 0 :=
  two_edges_one_ms_apart (initState 1000000) Line.line1 (by decide) (by decide) (by decide)
    (by decide) (by decide) (by decide)

/-! ## Period and frequency -/

theorem Characters_length : Characters.length = 128 := rfl

set_option maxRecDepth 100000 in
theorem Characters_rows : ∀ row ∈ Characters, row.length = 8 := by decide

theorem glyphRow_length (c : Nat) (hc : c < 128) : (glyphRow c).length = 8 := by
  unfold glyphRow
  have h : c < Characters.length := by rw [Characters_length]; exact hc
  rw [List.getD_eq_getElem?_getD, List.getElem?_eq_getElem h]
  exact Characters_rows _ (List.getElem_mem h)

theorem glyphByte_eq (c i : Nat) (hc : c < 128) : glyphByte c i = (glyphRow c)[i]? := by
  have h : c < Characters.length := by rw [Characters_length]; exact hc
  unfold glyphByte glyphRow
  rw [List.getD_eq_getElem?_getD, List.getElem?_eq_getElem h]
  rfl

theorem writeData_nil (s : State) : writeData [] s = s := rfl

theorem writeData_cons (b : Nat) (bs : List Nat) (s : State) :
    writeData (b :: bs) s = writeData bs (oled_Write_Data b s) := rfl

theorem writeData_append (as bs : List Nat) (s : State) :
    writeData (as ++ bs) s = writeData bs (writeData as s) := by
  simp [writeData, List.foldl_append]

theorem writeData_characterindex (bs : List Nat) (s : State) (k : Nat) :
    writeData bs { s with characterindex := k } =
      { writeData bs s with characterindex := k } := by
  induction bs generalizing s with
  | nil => rfl
  | cons b bs ih =>
    rw [writeData_cons, writeData_cons, ← ih]
    rfl

theorem writeData_bufferindex (bs : List Nat) (s : State) (k : Nat) :
    writeData bs { s with bufferindex := k } =
      { writeData bs s with bufferindex := k } := by
  induction bs generalizing s with
  | nil => rfl
  | cons b bs ih =>
    rw [writeData_cons, writeData_cons, ← ih]
    rfl

theorem writeData_cons_state (b : Nat) (bs : List Nat) (s : State) :
    writeData (b :: bs) s =
      { s with bus := s.bus ++ (b :: bs).map dataByte, PB6 := true, PB7 := true } := by
  induction bs generalizing b s with
  | nil => simp [writeData, oled_Write_Data, oled_Write, dataByte]
  | cons c cs ih =>
    rw [writeData_cons, ih]
    simp [oled_Write_Data, oled_Write, dataByte]

theorem writeData_bus (bs : List Nat) (s : State) :
    (writeData bs s).bus = s.bus ++ bs.map dataByte := by
  cases bs with
  | nil => simp [writeData]
  | cons b bs => rw [writeData_cons_state]

theorem writeData_state (bs : List Nat) (s : State) :
    writeData bs s =
      { s with
        bus := s.bus ++ bs.map dataByte
        PB6 := if bs = [] then s.PB6 else true
        PB7 := if bs = [] then s.PB7 else true } := by
  cases bs with
  | nil => simp [writeData]
  | cons b bs => rw [writeData_cons_state]; simp

theorem glyphRow_ne_nil (c : Nat) (hc : c < 128) : glyphRow c ≠ [] := by
  intro h
  have := glyphRow_length c hc
  rw [h] at this
  simp at this

theorem glyphLoop_spec (c : Nat) (hc : c < 128) :
    ∀ (n fuel : Nat) (s : State), s.characterindex + n = 8 → n < fuel →
      glyphLoop fuel c s = some
        { writeData ((glyphRow c).drop s.characterindex) s with characterindex := 8 } := by
  have hlen := glyphRow_length c hc
  intro n
  induction n with
  | zero =>
    intro fuel s hi hf
    obtain ⟨f, rfl⟩ : ∃ f, fuel = f + 1 := ⟨fuel - 1, by omega⟩
    have h8 : s.characterindex = 8 := by omega
    have hd : (glyphRow c).drop s.characterindex = [] := by
      rw [h8]; exact List.drop_eq_nil_of_le (by omega)
    unfold glyphLoop
    rw [if_neg (by omega), hd, writeData_nil, ← h8]
  | succ n ih =>
    intro fuel s hi hf
    obtain ⟨f, rfl⟩ : ∃ f, fuel = f + 1 := ⟨fuel - 1, by omega⟩
    have hlt : s.characterindex < (glyphRow c).length := by omega
    unfold glyphLoop
    rw [if_pos (by omega), glyphByte_eq c _ hc, List.getElem?_eq_getElem hlt]
    simp only []
    have hmod : ((oled_Write_Data ((glyphRow c)[s.characterindex]) s).characterindex + 1) % 2 ^ 16
        = s.characterindex + 1 := by
      have : (oled_Write_Data ((glyphRow c)[s.characterindex]) s).characterindex
          = s.characterindex := rfl
      rw [this]
      exact Nat.mod_eq_of_lt (by omega)
    rw [hmod, ih f _ (by simp only []; omega) (by omega)]
    simp only []
    rw [List.drop_eq_getElem_cons hlt, writeData_cons, writeData_characterindex]


theorem textLoop_spec (text : List Nat) (hchars : ∀ c ∈ text, c ≠ 0 ∧ c < 128)
    (hshort : text.length < 2 ^ 16) :
    ∀ (n fuel : Nat) (s : State), s.bufferindex + n = text.length → n < fuel →
      textLoop fuel (text ++ [0]) s = some
        { writeData ((text.drop s.bufferindex).flatMap glyphRow) s with
          bufferindex := text.length
          characterindex := if n = 0 then s.characterindex else 8 } := by
  intro n
  induction n with
  | zero =>
    intro fuel s hi hf
    obtain ⟨f, rfl⟩ : ∃ f, fuel = f + 1 := ⟨fuel - 1, by omega⟩
    have hb : s.bufferindex = text.length := by omega
    have hget : (text ++ [0])[s.bufferindex]? = some 0 := by
      rw [List.getElem?_append_right (by omega), hb]; simp
    have hd : text.drop s.bufferindex = [] := List.drop_eq_nil_of_le (by omega)
    unfold textLoop
    rw [hget, hd]
    simp only [ne_eq, not_true_eq_false, if_false, List.flatMap_nil, writeData_nil, if_true, ← hb]
  | succ n ih =>
    intro fuel s hi hf
    obtain ⟨f, rfl⟩ : ∃ f, fuel = f + 1 := ⟨fuel - 1, by omega⟩
    have hlt : s.bufferindex < text.length := by omega
    have hget : (text ++ [0])[s.bufferindex]? = some (text[s.bufferindex]) := by
      rw [List.getElem?_append_left hlt, List.getElem?_eq_getElem hlt]
    obtain ⟨hc0, hc128⟩ := hchars _ (List.getElem_mem hlt)
    have hg := glyphLoop_spec _ hc128 8 9 { s with characterindex := 0 } rfl (by omega)
    unfold textLoop
    rw [hget]
    simp only [ne_eq, hc0, not_false_eq_true, if_true, hg]
    have hmod : (s.bufferindex + 1) % 2 ^ 16 = s.bufferindex + 1 :=
      Nat.mod_eq_of_lt (by omega)
    have hne := glyphRow_ne_nil _ hc128
    simp only [List.drop_zero, writeData_state, hmod]
    rw [ih f _ (by simp only []; omega) (by omega)]
    simp only [List.drop_eq_getElem_cons hlt, List.flatMap_cons, writeData_state]
    apply congrArg some
    ext <;> simp [hne]

theorem oled_Write_Cmd_state (b : Nat) (s : State) :
    oled_Write_Cmd b s = { s with bus := s.bus ++ [cmdByte b], PB6 := true, PB7 := false } := by
  simp [oled_Write_Cmd, oled_Write, cmdByte]

theorem snprintf_short (text : List Nat) (h : text.length ≤ 16) :
    snprintf 17 text = text ++ [0] := by
  unfold snprintf
  rw [List.take_of_length_le (by omega)]

theorem writeLine_spec (page : Nat) (text : List Nat) (s : State)
    (hlen : text.length ≤ 16) (hchars : ∀ c ∈ text, c ≠ 0 ∧ c < 128) :
    writeLine page (snprintf 17 text) s = some
      { writeData (text.flatMap glyphRow)
          (oled_Write_Cmd 0x02 (oled_Write_Cmd 0x10 (oled_Write_Cmd page s))) with
        bufferindex := text.length
        characterindex := if text.length = 0 then 0 else 8 } := by
  unfold writeLine
  rw [snprintf_short text hlen]
  simp only []
  rw [textLoop_spec text hchars (by omega) text.length 17 _ (by simp) (by omega)]
  apply congrArg some
  ext <;> simp [writeData_state]

theorem length_flatMap_glyphRow (text : List Nat) (hchars : ∀ c ∈ text, c ≠ 0 ∧ c < 128) :
    (text.flatMap glyphRow).length = 8 * text.length := by
  induction text with
  | nil => rfl
  | cons c cs ih =>
    rw [List.flatMap_cons, List.length_append, List.length_cons,
      glyphRow_length c (hchars c (List.mem_cons_self _ _)).2,
      ih (fun d hd => hchars d (List.mem_cons_of_mem _ hd))]
    omega


/-- C7: for every target page and every text of length `N ≤ 16` whose
character codes are non-zero and below 128, the render block shared by
`refresh_OLED` and `perma_print` completes and puts on the bus exactly the
page-select command, the column-select pair `0x10`, `0x02`, and then the
`8 * N` data bytes `Characters[c][0..7]` of each character `c` in string order;
nothing else is sent. -/
theorem render_line_emits_glyph_columns (page : Nat) (text : List Nat) (s : State)
    (hlen : text.length ≤ 16) (hchars : ∀ c ∈ text, c ≠ 0 ∧ c < 128) :
    ∃ t, writeLine page (snprintf 17 text) s = some t ∧
      t.bus = s.bus ++ [cmdByte page, cmdByte 0x10, cmdByte 0x02]
        ++ (text.flatMap fun c => (Characters.getD c []).map dataByte) ∧
      (text.flatMap fun c => (Characters.getD c []).map dataByte).length = 8 * text.length := by
  have hmap : (text.flatMap fun c => (Characters.getD c []).map dataByte)
      = (text.flatMap glyphRow).map dataByte := by
    simp only [List.map_flatMap]
    rfl
  refine ⟨_, writeLine_spec page text s hlen hchars, ?_, ?_⟩
  · simp only [writeData_state, oled_Write_Cmd_state, hmap]
    simp
  · rw [hmap, List.length_map, length_flatMap_glyphRow text hchars]

/-- C7 (witness): the line `Res:  2500 Ohms` on page `0xB2`. -/
theorem render_line_emits_glyph_columns_witness :
    ∃ t, writeLine 0xB2 (snprintf 17 (cstr "Res:  2500 Ohms")) (initState 48000000) = some t ∧
      t.bus = (initState 48000000).bus ++ [cmdByte 0xB2, cmdByte 0x10, cmdByte 0x02]
        ++ ((cstr "Res:  2500 Ohms").flatMap fun c => (Characters.getD c []).map dataByte) ∧
      ((cstr "Res:  2500 Ohms").flatMap fun c => (Characters.getD c []).map dataByte).length
        = 8 * (cstr "Res:  2500 Ohms").length :=
  render_line_emits_glyph_columns 0xB2 (cstr "Res:  2500 Ohms") (initState 48000000)
    (by decide) (by decide)

theorem oled_Write_Data_bus (b : Nat) (s : State) :
    (oled_Write_Data b s).bus = s.bus ++ [dataByte b] := by
  simp [oled_Write_Data, oled_Write, dataByte]

theorem oled_Write_Cmd_bus (b : Nat) (s : State) :
    (oled_Write_Cmd b s).bus = s.bus ++ [cmdByte b] := by
  simp [oled_Write_Cmd, oled_Write, cmdByte]

theorem zeroFill_bus (n : Nat) (s : State) :
    (zeroFill n s).bus = s.bus ++ List.replicate n (dataByte 0x00) := by
  induction n generalizing s with
  | zero => simp [zeroFill]
  | succ n ih =>
    rw [zeroFill, ih, oled_Write_Data_bus, List.replicate_succ]
    simp

theorem clearLoop_bus (n : Nat) : ∀ (page : Nat) (s : State),
    (clearLoop n page s).bus = s.bus ++ pageTrace n page := by
  induction n with
  | zero => intro page s; simp [clearLoop, pageTrace]
  | succ n ih =>
    intro page s
    rw [clearLoop, ih, zeroFill_bus, oled_Write_Cmd_bus, oled_Write_Cmd_bus,
      oled_Write_Cmd_bus, pageTrace]
    simp

theorem oled_clear_bus (s : State) : (oled_clear s).bus = s.bus ++ clearTrace := by
  unfold oled_clear
  rw [clearLoop_bus, oled_Write_Cmd_bus, oled_Write_Cmd_bus, clearTrace]
  simp

theorem writeCmds_bus (bs : List Nat) (s : State) :
    (writeCmds bs s).bus = s.bus ++ bs.map cmdByte := by
  induction bs generalizing s with
  | nil => simp [writeCmds]
  | cons b bs ih =>
    have : writeCmds (b :: bs) s = writeCmds bs (oled_Write_Cmd b s) := rfl
    rw [this, ih, oled_Write_Cmd_bus]
    simp

theorem oled_config_bus (s : State) :
    (oled_config s).bus = s.bus ++ oled_init_cmds.map cmdByte ++ clearTrace := by
  unfold oled_config
  rw [oled_clear_bus]
  have h := writeCmds_bus oled_init_cmds (wait 3 { wait 3 { s with PB4 := false } with PB4 := true })
  unfold writeCmds at h
  rw [h]
  rfl

theorem pageTrace_succ (n page : Nat) :
    pageTrace (n + 1) page =
      [cmdByte page, cmdByte 0x02, cmdByte 0x10] ++ List.replicate 128 (dataByte 0x00)
        ++ pageTrace n ((page + 1) % 256) := rfl

theorem clearTrace_pages :
    clearTrace = [cmdByte 0x02, cmdByte 0x10] ++
      (List.range 8).flatMap fun i =>
        [cmdByte (0xB0 + i), cmdByte 0x02, cmdByte 0x10] ++ List.replicate 128 (dataByte 0x00) := by
  have hr : List.range 8 = [0, 1, 2, 3, 4, 5, 6, 7] := by decide
  rw [hr]
  unfold clearTrace
  simp only [pageTrace_succ, List.flatMap_cons, List.flatMap_nil, List.append_nil]
  norm_num [pageTrace]

theorem filter_dc_replicate_data (n : Nat) :
    (List.replicate n (dataByte 0x00)).filter (fun b => b.dc) = List.replicate n (dataByte 0x00) := by
  induction n with
  | zero => rfl
  | succ n ih => rw [List.replicate_succ, List.filter_cons_of_pos (by rfl), ih]

theorem filter_cmd_replicate_data (n : Nat) :
    (List.replicate n (dataByte 0x00)).filter (fun b => !b.dc && decide (0xB0 ≤ b.value)) = [] := by
  induction n with
  | zero => rfl
  | succ n ih => rw [List.replicate_succ, List.filter_cons_of_neg (by decide), ih]

theorem clearTrace_data :
    (clearTrace.filter fun b => b.dc).length = 8 * 128 ∧
    (∀ b ∈ clearTrace, b.dc = true → b.value = 0x00) ∧
    (clearTrace.filter fun b => !b.dc && decide (0xB0 ≤ b.value)).map BusByte.value
      = [0xB0, 0xB1, 0xB2, 0xB3, 0xB4, 0xB5, 0xB6, 0xB7] := by
  have hr : List.range 8 = [0, 1, 2, 3, 4, 5, 6, 7] := by decide
  rw [clearTrace_pages, hr]
  simp only [List.flatMap_cons, List.flatMap_nil, List.append_nil]
  refine ⟨?_, ?_, ?_⟩
  · simp only [List.filter_append, filter_dc_replicate_data, List.length_append,
      List.length_replicate]
    rfl
  · intro b hb hdc
    simp only [List.mem_append, List.mem_cons, List.mem_replicate, List.mem_singleton,
      List.not_mem_nil, or_false] at hb
    rcases hb with hb | hb
    · rcases hb with rfl | rfl <;> simp [cmdByte] at hdc
    · rcases hb with hb | hb | hb | hb | hb | hb | hb | hb <;>
        rcases hb with (rfl | rfl | rfl) | ⟨_, rfl⟩ <;>
        first | rfl | (simp [cmdByte] at hdc)
  · simp only [List.filter_append, filter_cmd_replicate_data, List.append_nil]
    rfl

/-- C8: the full-screen clear of `oled_config` puts on the bus, after the
initialization commands, a byte sequence that does not depend on the state it
starts from: the column commands, then for each page `0xB0 .. 0xB7` in ascending
order one page select, the column commands and 128 data bytes `0x00`;
`8 * 128 = 1024` data bytes in all, every one zero; run twice it emits the same
sequence twice. -/
theorem full_screen_clear_trace (s : State) :
    (oled_clear s).bus = s.bus ++ clearTrace ∧
    (oled_config s).bus = s.bus ++ oled_init_cmds.map cmdByte ++ clearTrace ∧
    (oled_clear (oled_clear s)).bus = s.bus ++ clearTrace ++ clearTrace ∧
    clearTrace = [cmdByte 0x02, cmdByte 0x10] ++
      ((List.range 8).flatMap fun i =>
        [cmdByte (0xB0 + i), cmdByte 0x02, cmdByte 0x10]
          ++ List.replicate 128 (dataByte 0x00)) ∧
    (clearTrace.filter fun b => b.dc).length = 8 * 128 ∧
    (∀ b ∈ clearTrace, b.dc = true → b.value = 0x00) ∧
    (clearTrace.filter fun b => !b.dc && decide (0xB0 ≤ b.value)).map BusByte.value
      = [0xB0, 0xB1, 0xB2, 0xB3, 0xB4, 0xB5, 0xB6, 0xB7] := by
  refine ⟨oled_clear_bus s, oled_config_bus s, ?_, clearTrace_pages, clearTrace_data.1,
    clearTrace_data.2.1, clearTrace_data.2.2⟩
  rw [oled_clear_bus, oled_clear_bus]


/-! ## Telemetry formatting -/

theorem decimalValue_append_singleton (l : List Nat) (d : Nat) :
    decimalValue (l ++ [d]) = 10 * decimalValue l + (d - 48) := by
  simp [decimalValue, List.foldl_append]

theorem digitsRev_value (fuel : Nat) : ∀ v, v < 10 ^ fuel →
    decimalValue (digitsRev fuel v).reverse = v := by
  induction fuel with
  | zero => intro v hv; simp at hv; subst hv; rfl
  | succ f ih =>
    intro v hv
    unfold digitsRev
    by_cases h : v < 10
    · rw [if_pos h]
      simp [decimalValue]
    · rw [if_neg h, List.reverse_cons, decimalValue_append_singleton,
        ih (v / 10) (by rw [pow_succ] at hv; omega)]
      omega

theorem digitsRev_digits (fuel : Nat) : ∀ v, ∀ d ∈ digitsRev fuel v, 48 ≤ d ∧ d ≤ 57 := by
  induction fuel with
  | zero => intro v d hd; simp [digitsRev] at hd
  | succ f ih =>
    intro v d hd
    unfold digitsRev at hd
    by_cases h : v < 10
    · rw [if_pos h] at hd
      simp only [List.mem_singleton] at hd
      omega
    · rw [if_neg h] at hd
      rcases List.mem_cons.mp hd with rfl | hd'
      · omega
      · exact ih _ d hd'

theorem digitsRev_length_le (fuel : Nat) : ∀ k v, v < 10 ^ fuel → v < 10 ^ k → 1 ≤ k →
    (digitsRev fuel v).length ≤ k := by
  induction fuel with
  | zero => intro k v hv _ hk; simp [digitsRev]
  | succ f ih =>
    intro k v hv hvk hk
    unfold digitsRev
    by_cases h : v < 10
    · rw [if_pos h]; simpa using hk
    · rw [if_neg h, List.length_cons]
      obtain ⟨j, rfl⟩ : ∃ j, k = j + 1 := ⟨k - 1, by omega⟩
      have hj : 1 ≤ j := by
        rcases Nat.eq_zero_or_pos j with h0 | h0
        · subst h0; simp at hvk; omega
        · exact h0
      have := ih j (v / 10) (by rw [pow_succ] at hv; omega) (by rw [pow_succ] at hvk; omega) hj
      omega

theorem digitsRev_length_pos (fuel : Nat) (v : Nat) (hf : 0 < fuel) :
    0 < (digitsRev fuel v).length := by
  obtain ⟨f, rfl⟩ : ∃ f, fuel = f + 1 := ⟨fuel - 1, by omega⟩
  unfold digitsRev
  split_ifs <;> simp

theorem digitsRev_length_min (fuel : Nat) : ∀ v, v ≠ 0 → v < 10 ^ fuel →
    10 ^ ((digitsRev fuel v).length - 1) ≤ v := by
  induction fuel with
  | zero => intro v hv h; simp at h; omega
  | succ f ih =>
    intro v hv h
    unfold digitsRev
    by_cases h10 : v < 10
    · rw [if_pos h10]; simp; omega
    · rw [if_neg h10, List.length_cons, Nat.add_sub_cancel]
      have hv10 : v / 10 ≠ 0 := by omega
      have hlt : v / 10 < 10 ^ f := by rw [pow_succ] at h; omega
      have hf : 0 < f := by
        rcases Nat.eq_zero_or_pos f with h0 | h0
        · subst h0; simp at hlt; omega
        · exact h0
      have h1 := ih (v / 10) hv10 hlt
      have hpos := digitsRev_length_pos f (v / 10) hf
      obtain ⟨m, hm⟩ : ∃ m, (digitsRev f (v / 10)).length = m + 1 :=
        ⟨(digitsRev f (v / 10)).length - 1, by omega⟩
      rw [hm] at h1 ⊢
      rw [Nat.add_sub_cancel] at h1
      rw [pow_succ]
      omega

theorem lt_ten_pow_succ (v : Nat) : v < 10 ^ (v + 1) :=
  lt_trans (Nat.lt_pow_self (by norm_num) v) (Nat.pow_lt_pow_right (by norm_num) (by omega))

theorem fmt_u_length_le (v k : Nat) (hv : v < 10 ^ k) (hk : 1 ≤ k) : (fmt_u v).length ≤ k := by
  unfold fmt_u
  rw [List.length_reverse]
  exact digitsRev_length_le (v + 1) k v (lt_ten_pow_succ v) hv hk

theorem fmt_5u_length (v : Nat) (hv : v < 100000) : (fmt_5u v).length = 5 := by
  have h := fmt_u_length_le v 5 (by norm_num; exact hv) (by norm_num)
  unfold fmt_5u
  rw [List.length_append, List.length_replicate]
  omega

theorem resText_length (v : Nat) (hv : v < 100000) : (resText v).length = 15 := by
  unfold resText
  rw [List.length_append, List.length_append, fmt_5u_length v hv]
  rfl

theorem freqText_length (v : Nat) (hv : v < 100000) : (freqText v).length = 14 := by
  unfold freqText
  rw [List.length_append, List.length_append, fmt_5u_length v hv]
  rfl

/-- C9: for every value `v < 100000` the conversion `%5u` yields a field of
exactly 5 characters, spaces followed by the decimal digits of `v` (digits
`0..9`, denoting `v`, without leading zeros); the buffer then holds
`"Res: "`, the field, `" Ohms"` (resp. `"Freq: "`, the field, `" Hz"`) and the
terminator. In particular 2500 gives `" 2500"` and the line
`"Res:  2500 Ohms"`, and 0 gives `"    0"` and the line `"Freq:     0 Hz"`. -/
theorem telemetry_field_five_wide (v : Nat) (hv : v < 100000) :
    (fmt_5u v).length = 5 ∧
    fmt_5u v = List.replicate (5 - (fmt_u v).length) 32 ++ fmt_u v ∧
    (∀ d ∈ fmt_u v, 48 ≤ d ∧ d ≤ 57) ∧
    decimalValue (fmt_u v) = v ∧
    (v ≠ 0 → 10 ^ ((fmt_u v).length - 1) ≤ v) ∧
    snprintf 17 (resText v) = cstr "Res: " ++ fmt_5u v ++ cstr " Ohms" ++ [0] ∧
    snprintf 17 (freqText v) = cstr "Freq: " ++ fmt_5u v ++ cstr " Hz" ++ [0] ∧
    fmt_5u 2500 = cstr " 2500" ∧
    snprintf 17 (resText 2500) = cstr "Res:  2500 Ohms" ++ [0] ∧
    fmt_5u 0 = cstr "    0" ∧
    snprintf 17 (freqText 0) = cstr "Freq:     0 Hz" ++ [0] := by
  refine ⟨fmt_5u_length v hv, rfl, ?_, ?_, ?_, ?_, ?_, by decide, by decide, by decide,
    by decide⟩
  · intro d hd
    exact digitsRev_digits (v + 1) v d (List.mem_reverse.mp hd)
  · exact digitsRev_value (v + 1) v (lt_ten_pow_succ v)
  · intro h0
    have := digitsRev_length_min (v + 1) v h0 (lt_ten_pow_succ v)
    simpa [fmt_u] using this
  · rw [snprintf_short _ (by rw [resText_length v hv]; norm_num)]
    rfl
  · rw [snprintf_short _ (by rw [freqText_length v hv]; norm_num)]
    rfl

/-- C9 (witness): the value 2500. -/
theorem telemetry_field_five_wide_witness :
    (fmt_5u 2500).length = 5 ∧
    fmt_5u 2500 = List.replicate (5 - (fmt_u 2500).length) 32 ++ fmt_u 2500 ∧
    (∀ d ∈ fmt_u 2500, 48 ≤ d ∧ d ≤ 57) ∧
    decimalValue (fmt_u 2500) = 2500 ∧
    (2500 ≠ 0 → 10 ^ ((fmt_u 2500).length - 1) ≤ 2500) ∧
    snprintf 17 (resText 2500) = cstr "Res: " ++ fmt_5u 2500 ++ cstr " Ohms" ++ [0] ∧
    snprintf 17 (freqText 2500) = cstr "Freq: " ++ fmt_5u 2500 ++ cstr " Hz" ++ [0] ∧
    fmt_5u 2500 = cstr " 2500" ∧
    snprintf 17 (resText 2500) = cstr "Res:  2500 Ohms" ++ [0] ∧
    fmt_5u 0 = cstr "    0" ∧
    snprintf 17 (freqText 0) = cstr "Freq:     0 Hz" ++ [0] :=
  telemetry_field_five_wide 2500 (by decide)


theorem fmt_5u_chars (v : Nat) : ∀ c ∈ fmt_5u v, c ≠ 0 ∧ c < 128 := by
  intro c hc
  unfold fmt_5u at hc
  rcases List.mem_append.mp hc with h | h
  · have := (List.mem_replicate.mp h).2
    omega
  · have := digitsRev_digits (v + 1) v c (List.mem_reverse.mp h)
    omega

theorem resText_chars (v : Nat) : ∀ c ∈ resText v, c ≠ 0 ∧ c < 128 := by
  have h1 : ∀ c ∈ cstr "Res: ", c ≠ 0 ∧ c < 128 := by decide
  have h2 : ∀ c ∈ cstr " Ohms", c ≠ 0 ∧ c < 128 := by decide
  intro c hc
  unfold resText at hc
  rcases List.mem_append.mp hc with h | h
  · rcases List.mem_append.mp h with h | h
    · exact h1 c h
    · exact fmt_5u_chars v c h
  · exact h2 c h

theorem freqText_chars (v : Nat) : ∀ c ∈ freqText v, c ≠ 0 ∧ c < 128 := by
  have h1 : ∀ c ∈ cstr "Freq: ", c ≠ 0 ∧ c < 128 := by decide
  have h2 : ∀ c ∈ cstr " Hz", c ≠ 0 ∧ c < 128 := by decide
  intro c hc
  unfold freqText at hc
  rcases List.mem_append.mp hc with h | h
  · rcases List.mem_append.mp h with h | h
    · exact h1 c h
    · exact fmt_5u_chars v c h
  · exact h2 c h

theorem snprintf_take (text : List Nat) : snprintf 17 text = snprintf 17 (text.take 16) := by
  simp [snprintf, List.take_take]

theorem writeLine_cut (page : Nat) (text : List Nat) (s : State)
    (hchars : ∀ c ∈ text, c ≠ 0 ∧ c < 128) :
    writeLine page (snprintf 17 text) s = some
      { writeData ((text.take 16).flatMap glyphRow)
          (oled_Write_Cmd 0x02 (oled_Write_Cmd 0x10 (oled_Write_Cmd page s))) with
        bufferindex := (text.take 16).length
        characterindex := if (text.take 16).length = 0 then 0 else 8 } := by
  rw [snprintf_take]
  exact writeLine_spec page (text.take 16) s (by simp)
    (fun c hc => hchars c (List.mem_of_mem_take hc))

theorem refresh_OLED_spec (s : State) :
    ∃ t, refresh_OLED s = some t ∧
      t.bus = s.bus ++ [cmdByte 0xB2, cmdByte 0x10, cmdByte 0x02]
        ++ (((resText s.Res).take 16).flatMap glyphRow).map dataByte
        ++ [cmdByte 0xB4, cmdByte 0x10, cmdByte 0x02]
        ++ (((freqText s.Freq).take 16).flatMap glyphRow).map dataByte := by
  unfold refresh_OLED
  rw [writeLine_cut 0xB2 (resText s.Res) s (resText_chars s.Res)]
  simp only [Option.some_bind, Option.bind_eq_bind]
  rw [writeLine_cut 0xB4 _ _ (freqText_chars _)]
  refine ⟨_, rfl, ?_⟩
  simp [wait, writeData_state, oled_Write_Cmd_state]

/-- C10 (counterexample): two edges on line 1, 480 ticks apart at 48 MHz, store
`Freq = 100000`, whose line `Freq: 100000 Hz` has 15 characters, not 14; 4 ticks
apart they store `Freq = 12000000`, whose line is cut to the 16 characters
`Freq: 12000000 H` and does not end with ` Hz`. -/
theorem telemetry_line_grows_with_value :
    Option.map State.Freq
      (run (initState 48000000)
        [Event.rise Line.line1, Event.ticks 480, Event.rise Line.line1]) = some 100000 ∧
    snprintf 17 (freqText 100000) = cstr "Freq: 100000 Hz" ++ [0] ∧
    (cstr "Freq: 100000 Hz").length = 15 ∧
    Option.map State.Freq
      (run (initState 48000000)
        [Event.rise Line.line1, Event.ticks 4, Event.rise Line.line1]) = some 12000000 ∧
    snprintf 17 (freqText 12000000) = cstr "Freq: 12000000 H" ++ [0] ∧
    (cstr "Freq: 12000000 H").length = 16 ∧
    (cstr "Freq: 12000000 H").drop 13 ≠ cstr " Hz" := by
  decide

/-- C10 (amended): for `Res < 100000` and `Freq < 100000` the two telemetry
lines that `refresh_OLED` draws are fixed-width decimal text with a unit
suffix: the resistance line has 15 characters and ends with `" Ohms"`, the
frequency line has 14 characters and ends with `" Hz"`, and `refresh_OLED`
renders exactly these two lines on pages `0xB2` and `0xB4`. -/
theorem telemetry_lines_fixed_width (s : State) (hR : s.Res < 100000)
    (hF : s.Freq < 100000) :
    ∃ lineR lineF t,
      snprintf 17 (resText s.Res) = lineR ++ [0] ∧ lineR.length = 15 ∧
      lineR.drop 10 = cstr " Ohms" ∧
      snprintf 17 (freqText s.Freq) = lineF ++ [0] ∧ lineF.length = 14 ∧
      lineF.drop 11 = cstr " Hz" ∧
      refresh_OLED s = some t ∧
      t.bus = s.bus ++ [cmdByte 0xB2, cmdByte 0x10, cmdByte 0x02]
        ++ (lineR.flatMap glyphRow).map dataByte
        ++ [cmdByte 0xB4, cmdByte 0x10, cmdByte 0x02]
        ++ (lineF.flatMap glyphRow).map dataByte := by
  have hlR := resText_length s.Res hR
  have hlF := freqText_length s.Freq hF
  have h5R := fmt_5u_length s.Res hR
  have h5F := fmt_5u_length s.Freq hF
  obtain ⟨t, ht, hbus⟩ := refresh_OLED_spec s
  refine ⟨resText s.Res, freqText s.Freq, t, snprintf_short _ (by omega), hlR, ?_,
    snprintf_short _ (by omega), hlF, ?_, ht, ?_⟩
  · unfold resText
    have : (cstr "Res: " ++ fmt_5u s.Res).length = 10 := by
      rw [List.length_append, h5R]; rfl
    rw [List.drop_append_of_le_length (by omega), List.drop_eq_nil_of_le (by omega)]
    rfl
  · unfold freqText
    have : (cstr "Freq: " ++ fmt_5u s.Freq).length = 11 := by
      rw [List.length_append, h5F]; rfl
    rw [List.drop_append_of_le_length (by omega), List.drop_eq_nil_of_le (by omega)]
    rfl
  · rw [hbus, List.take_of_length_le (by omega), List.take_of_length_le (by omega)]

/-- C10 (witness): `Res = 2500`, `Freq = 0`. -/
theorem telemetry_lines_fixed_width_witness :
    ∃ lineR lineF t,
      snprintf 17 (resText ({ initState 48000000 with Res := 2500 } : State).Res)
        = lineR ++ [0] ∧ lineR.length = 15 ∧
      lineR.drop 10 = cstr " Ohms" ∧
      snprintf 17 (freqText ({ initState 48000000 with Res := 2500 } : State).Freq)
        = lineF ++ [0] ∧ lineF.length = 14 ∧
      lineF.drop 11 = cstr " Hz" ∧
      refresh_OLED { initState 48000000 with Res := 2500 } = some t ∧
      t.bus = ({ initState 48000000 with Res := 2500 } : State).bus
        ++ [cmdByte 0xB2, cmdByte 0x10, cmdByte 0x02]
        ++ (lineR.flatMap glyphRow).map dataByte
        ++ [cmdByte 0xB4, cmdByte 0x10, cmdByte 0x02]
        ++ (lineF.flatMap glyphRow).map dataByte :=
  telemetry_lines_fixed_width { initState 48000000 with Res := 2500 } (by decide) (by decide)

/-! ## Display transport: one byte per call -/

/-- C12: for every byte `b`, `oled_Write_Cmd b` and `oled_Write_Data b` each
put exactly the one byte `b` on the bus, with chip-select asserted (PB6 low) at
the moment of transmission and released (PB6 high) on return, and with the
data/command line (PB7) low for a command and high for data at the moment of
transmission; nothing else of the state changes except that PB7 keeps the
level it was given. -/
theorem oled_write_one_byte (b : Nat) (s : State) :
    oled_Write_Cmd b s =
      { s with bus := s.bus ++ [{ value := b, cs := false, dc := false }],
               PB6 := true, PB7 := false } ∧
    oled_Write_Data b s =
      { s with bus := s.bus ++ [{ value := b, cs := false, dc := true }],
               PB6 := true, PB7 := true } ∧
    (oled_Write_Cmd b s).bus.length = s.bus.length + 1 ∧
    (oled_Write_Data b s).bus.length = s.bus.length + 1 ∧
    (oled_Write_Cmd b s).PB6 = true ∧ (oled_Write_Data b s).PB6 = true := by
  refine ⟨?_, ?_, ?_, ?_, rfl, rfl⟩
  · simp [oled_Write_Cmd, oled_Write]
  · simp [oled_Write_Data, oled_Write]
  · simp [oled_Write_Cmd, oled_Write]
  · simp [oled_Write_Data, oled_Write]

/-! ## Edges on the line that is not measured -/

/-- An edge on the line that is not measured (for line 1 with no button
pending): the handler returns the state unchanged except for the pending
register, which its clear leaves empty. -/
theorem handler_inactive_edge (s : State) (l : Line) (hl : l ≠ Line.button)
    (hinact : s.input_line ≠ l.number) (hpend : s.EXTI_PR &&& l.flag ≠ 0)
    (hbtn : l = Line.line1 → s.EXTI_PR &&& EXTI_PR_PR0 = 0) :
    l.handler s = some { s with EXTI_PR := 0 } := by
  cases l with
  | button => exact absurd rfl hl
  | line1 =>
    have hb := hbtn rfl
    simp only [Line.flag] at hpend
    simp only [Line.number] at hinact
    simp only [Line.handler, EXTI0_1_IRQHandler, EXTI0_1_button_none s hb]
    simp [EXTI0_1_edge, hpend, hinact, EXTI_PR_store_lor]
  | line2 =>
    simp only [Line.flag] at hpend
    simp only [Line.number] at hinact
    simp [Line.handler, EXTI2_3_IRQHandler, hpend, hinact, EXTI_PR_store_lor]

/-- C13 (the code at the failing input): line 2 is the measured line, the
capture is idle, and edges are pending on both lines, no button.
`EXTI0_1_IRQHandler`, which has the higher priority, finds line 1 not measured
and only executes `EXTI->PR |= EXTI_PR_PR1`: `edge_count`, `Freq`, `Res`,
`input_line` and the capture counter are unchanged, but the store writes back
`0b110` and empties the pending register, where clearing the flag of line 1
alone leaves `EXTI_PR_PR2` pending. The edge on the measured line is lost:
`EXTI2_3_IRQHandler` then finds nothing pending and changes nothing, whereas
with the flag of line 2 still pending it arms the capture. -/
theorem inactive_edge_clear_drops_measured_edge :
    idleBothLinesPending.input_line = 2 ∧
    idleBothLinesPending.EXTI_PR &&& EXTI_PR_PR1 ≠ 0 ∧
    idleBothLinesPending.EXTI_PR &&& EXTI_PR_PR0 = 0 ∧
    EXTI0_1_IRQHandler idleBothLinesPending
      = some { idleBothLinesPending with EXTI_PR := 0 } ∧
    idleBothLinesPending.EXTI_PR &&& not32 EXTI_PR_PR1 = EXTI_PR_PR2 ∧
    EXTI2_3_IRQHandler { idleBothLinesPending with EXTI_PR := 0 }
      = some { idleBothLinesPending with EXTI_PR := 0 } ∧
    Option.map (fun t => (t.edge_count, t.TIM2_CR1 &&& TIM_CR1_CEN))
      (EXTI2_3_IRQHandler { idleBothLinesPending with EXTI_PR := EXTI_PR_PR2 })
      = some (1, TIM_CR1_CEN) := by
  decide

/-! ## The pending-flag clear -/

/-- C18 (the code at the failing inputs): with the button and a line-1 edge
pending together while line 2 is measured, `EXTI->PR |= EXTI_PR_PR0` stores
`0b011` and empties the pending register, so the line-1 edge block does not run
on the line that has just become the measured one (`edge_count` stays 0, the
counter stays stopped); and with edges pending on both lines, the clear of
the line-1 flag also clears the flag of line 2. -/
theorem pending_clear_drops_other_flags :
    Option.map (fun t => (t.input_line, t.EXTI_PR, t.edge_count, t.TIM2_CR1 &&& TIM_CR1_CEN))
      (EXTI0_1_IRQHandler buttonAndLine1) = some (1, 0, 0, 0) ∧
    bothLinesPending.EXTI_PR &&& EXTI_PR_PR2 = EXTI_PR_PR2 ∧
    Option.map (fun t => t.EXTI_PR &&& EXTI_PR_PR2)
      (EXTI0_1_IRQHandler bothLinesPending) = some 0 ∧
    EXTI_PR_store (EXTI_PR_PR0 ||| EXTI_PR_PR1) ((EXTI_PR_PR0 ||| EXTI_PR_PR1) ||| EXTI_PR_PR0)
      = 0 := by
  decide

/-! ## The renderer reads the measurement state -/

theorem RenderFrame.refl (s : State) : RenderFrame s s := by
  simp [RenderFrame]

theorem RenderFrame.trans {s t u : State} (h1 : RenderFrame s t) (h2 : RenderFrame t u) :
    RenderFrame s u := by
  obtain ⟨a1, a2, a3, a4, a5, a6, a7, a8, a9, a10, a11, a12, a13⟩ := h1
  obtain ⟨b1, b2, b3, b4, b5, b6, b7, b8, b9, b10, b11, b12, b13⟩ := h2
  exact ⟨b1.trans a1, b2.trans a2, b3.trans a3, b4.trans a4, b5.trans a5, b6.trans a6,
    b7.trans a7, b8.trans a8, b9.trans a9, b10.trans a10, b11.trans a11, b12.trans a12,
    b13.trans a13⟩

theorem wait_frame (n : Nat) (s : State) : RenderFrame s (wait n s) := by
  simp [RenderFrame, wait]

theorem writeLine_frame (page : Nat) (text : List Nat) (s : State)
    (hchars : ∀ c ∈ text, c ≠ 0 ∧ c < 128) :
    ∃ t, writeLine page (snprintf 17 text) s = some t ∧ RenderFrame s t ∧
      t.bus = s.bus ++ lineTrace page (text.take 16) := by
  refine ⟨_, writeLine_cut page text s hchars, ?_, ?_⟩
  · simp [RenderFrame, writeData_state, oled_Write_Cmd_state]
  · simp [writeData_state, oled_Write_Cmd_state, lineTrace]

theorem banner_chars :
    (∀ c ∈ cstr "Hi Guoliang! :)", c ≠ 0 ∧ c < 128) ∧
    (∀ c ∈ cstr "Presenting...", c ≠ 0 ∧ c < 128) ∧
    (∀ c ∈ cstr "ECE 355 Project", c ≠ 0 ∧ c < 128) ∧
    (∀ c ∈ cstr "Sophie & Menoa", c ≠ 0 ∧ c < 128) := by
  decide

theorem banner_take :
    (cstr "Hi Guoliang! :)").take 16 = cstr "Hi Guoliang! :)" ∧
    (cstr "Presenting...").take 16 = cstr "Presenting..." ∧
    (cstr "ECE 355 Project").take 16 = cstr "ECE 355 Project" ∧
    (cstr "Sophie & Menoa").take 16 = cstr "Sophie & Menoa" := by
  decide

theorem refresh_OLED_frame (s : State) :
    ∃ t, refresh_OLED s = some t ∧ RenderFrame s t ∧
      t.bus = s.bus ++ lineTrace 0xB2 ((resText s.Res).take 16)
        ++ lineTrace 0xB4 ((freqText s.Freq).take 16) := by
  obtain ⟨t1, h1, e1, b1⟩ := writeLine_frame 0xB2 (resText s.Res) s (resText_chars s.Res)
  obtain ⟨t2, h2, e2, b2⟩ := writeLine_frame 0xB4 (freqText t1.Freq) t1 (freqText_chars _)
  have hF : t1.Freq = s.Freq := e1.1
  refine ⟨wait 100 t2, ?_, (e1.trans e2).trans (wait_frame 100 t2), ?_⟩
  · unfold refresh_OLED
    rw [h1]
    simp only [Option.some_bind, Option.bind_eq_bind]
    rw [h2]
    rfl
  · have hb : (wait 100 t2).bus = t2.bus := rfl
    rw [hb, b2, b1, hF]


theorem four_lines_frame (x1 x2 x3 x4 : List Nat) (s : State)
    (c1 : ∀ c ∈ x1, c ≠ 0 ∧ c < 128) (c2 : ∀ c ∈ x2, c ≠ 0 ∧ c < 128)
    (c3 : ∀ c ∈ x3, c ≠ 0 ∧ c < 128) (c4 : ∀ c ∈ x4, c ≠ 0 ∧ c < 128) :
    ∃ t,
      ((writeLine 0xB0 (snprintf 17 x1) s).bind fun s1 =>
        (writeLine 0xB2 (snprintf 17 x2) (wait 500 s1)).bind fun s2 =>
        (writeLine 0xB4 (snprintf 17 x3) (wait 500 s2)).bind fun s3 =>
        (writeLine 0xB6 (snprintf 17 x4) (wait 500 s3)).bind fun s4 =>
        some (wait 500 s4)) = some t ∧
      RenderFrame s t ∧
      t.bus = s.bus ++ (lineTrace 0xB0 (x1.take 16) ++ lineTrace 0xB2 (x2.take 16)
        ++ lineTrace 0xB4 (x3.take 16) ++ lineTrace 0xB6 (x4.take 16)) := by
  obtain ⟨t1, h1, e1, b1⟩ := writeLine_frame 0xB0 x1 s c1
  obtain ⟨t2, h2, e2, b2⟩ := writeLine_frame 0xB2 x2 (wait 500 t1) c2
  obtain ⟨t3, h3, e3, b3⟩ := writeLine_frame 0xB4 x3 (wait 500 t2) c3
  obtain ⟨t4, h4, e4, b4⟩ := writeLine_frame 0xB6 x4 (wait 500 t3) c4
  have w1 : (wait 500 t1).bus = t1.bus := rfl
  have w2 : (wait 500 t2).bus = t2.bus := rfl
  have w3 : (wait 500 t3).bus = t3.bus := rfl
  have w4 : (wait 500 t4).bus = t4.bus := rfl
  refine ⟨wait 500 t4, ?_, ?_, ?_⟩
  · rw [h1]
    simp only [Option.some_bind, Option.bind_eq_bind]
    rw [h2]
    simp only [Option.some_bind, Option.bind_eq_bind]
    rw [h3]
    simp only [Option.some_bind, Option.bind_eq_bind]
    rw [h4]
    simp only [Option.some_bind, Option.bind_eq_bind]
  · exact (((((((e1.trans (wait_frame 500 t1)).trans e2).trans (wait_frame 500 t2)).trans
      e3).trans (wait_frame 500 t3)).trans e4).trans (wait_frame 500 t4))
  · rw [w4, b4, w3, b3, w2, b2, w1, b1]
    simp only [List.append_assoc]

theorem perma_print_frame (s : State) :
    ∃ t, perma_print s = some t ∧ RenderFrame s t ∧ t.bus = s.bus ++ bannerTrace := by
  obtain ⟨c1, c2, c3, c4⟩ := banner_chars
  obtain ⟨k1, k2, k3, k4⟩ := banner_take
  obtain ⟨t, h, e, b⟩ := four_lines_frame (cstr "Hi Guoliang! :)") (cstr "Presenting...")
    (cstr "ECE 355 Project") (cstr "Sophie & Menoa") s c1 c2 c3 c4
  rw [k1, k2, k3, k4] at b
  exact ⟨t, h, e, b⟩

/-- C14: for every state, `refresh_OLED` and `perma_print` complete and leave
`Freq`, `Res`, `input_line` and `edge_count` unchanged, and with them
`POT_val`, the interrupt, capture-counter and converter registers; of the
program variables they modify only the cursor indices `bufferindex` and
`characterindex` (the buffer is local). -/
theorem renderer_reads_measurement_state (s : State) :
    (∃ t, refresh_OLED s = some t ∧ RenderFrame s t ∧
      t.Freq = s.Freq ∧ t.Res = s.Res ∧ t.input_line = s.input_line ∧
      t.edge_count = s.edge_count ∧ t.POT_val = s.POT_val) ∧
    (∃ t, perma_print s = some t ∧ RenderFrame s t ∧
      t.Freq = s.Freq ∧ t.Res = s.Res ∧ t.input_line = s.input_line ∧
      t.edge_count = s.edge_count ∧ t.POT_val = s.POT_val) := by
  obtain ⟨t, ht, et, _⟩ := refresh_OLED_frame s
  obtain ⟨u, hu, eu, _⟩ := perma_print_frame s
  exact ⟨⟨t, ht, et, et.1, et.2.1, et.2.2.2.1, et.2.2.1, et.2.2.2.2.1⟩,
    ⟨u, hu, eu, eu.1, eu.2.1, eu.2.2.2.1, eu.2.2.1, eu.2.2.2.2.1⟩⟩


/-! ## Zero elapsed time -/

theorem f32ofNat_pos (n : Nat) (hn : 0 < n) (hlt : n < 2 ^ 32) :
    ∃ m e, f32ofNat n = F32.fin m e ∧ 0 < m := by
  have hq : (0 : ℚ) < (n : ℚ) := by exact_mod_cast hn
  obtain ⟨m, e, h, hm, _, _⟩ := (f32ofNat_spec n hn hlt).bounds hq
  exact ⟨m, e, h, hm⟩

theorem f32round_zero (den : Nat) : f32round 0 den = F32.fin 0 0 := by
  simp [f32round]

theorem scalePair_zero (den : Nat) (s : Int) : (scalePair 0 den s).1 = 0 := by
  cases s <;> simp [scalePair]

theorem freqOf_zero (F : Nat) (hF : 0 < F) (hF32 : F < 2 ^ 32) : freqOf 0 F = none := by
  obtain ⟨m, e, hb, hm⟩ := f32ofNat_pos F hF hF32
  have h0 : f32ofNat 0 = F32.fin 0 0 := by decide
  have h1 : f32ofNat 1 = F32.fin 8388608 (-23) := by decide
  have hp : f32div (F32.fin 0 0) (F32.fin m e) = F32.fin 0 0 := by
    unfold f32div
    simp only [if_neg hm.ne']
    rw [scalePair_zero, f32round_zero]
  unfold freqOf
  rw [h0, hb, hp, h1]
  rfl

/-- C15: the second-edge conversion has no guard against a zero elapsed time.
For a counting clock `0 < F < 2 ^ 31` and every counter reading `T < 2 ^ 32`
the conversion yields a value exactly when `T > 0`; for `T = 0` the period is
`0.0`, the division `1 / 0.0` is carried out and gives infinity, which has no
`unsigned int` value, and the handler of the active line, entered with an edge
pending, is undefined; a first edge followed at once by a second edge on the
active line reaches it with the counter still reading 0. -/
theorem conversion_unguarded_against_zero (s : State) (l : Line) (hl : l ≠ Line.button)
    (hact : s.input_line = l.number) (hidle : s.edge_count = 0) (hpr : s.EXTI_PR = 0)
    (hmask : s.EXTI_IMR &&& l.flag ≠ 0)
    (hF : 0 < s.SystemCoreClock) (hF31 : s.SystemCoreClock < 2 ^ 31) :
    (∀ T, T < 2 ^ 32 → (freqOf T s.SystemCoreClock ≠ none ↔ 0 < T)) ∧
    f32div (f32ofNat 0) (f32ofNat s.SystemCoreClock) = F32.fin 0 0 ∧
    f32div (f32ofNat 1) (F32.fin 0 0) = F32.inf ∧
    f32toU32 F32.inf = none ∧
    run s [Event.rise l, Event.rise l] = none := by
  have hF32 : s.SystemCoreClock < 2 ^ 32 := lt_trans hF31 (by norm_num)
  have hz := freqOf_zero s.SystemCoreClock hF hF32
  refine ⟨?_, ?_, by decide, rfl, ?_⟩
  · intro T hT
    constructor
    · intro h
      rcases Nat.eq_zero_or_pos T with h0 | h0
      · subst h0; exact absurd hz h
      · exact h0
    · intro h
      obtain ⟨v, hv, _⟩ := freqOf_spec T s.SystemCoreClock h hT hF hF31
      rw [hv]; simp
  · obtain ⟨m, e, hb, hm⟩ := f32ofNat_pos s.SystemCoreClock hF hF32
    have h0 : f32ofNat 0 = F32.fin 0 0 := by decide
    rw [h0, hb]
    unfold f32div
    simp only [if_neg hm.ne']
    rw [scalePair_zero, f32round_zero]
  · have hb : l = Line.line1 → (0 ||| l.flag) &&& EXTI_PR_PR0 = 0 := by
      intro h; subst h; decide
    have e1 : riseEvent l s = some
        { s with TIM2_CNT := 0, TIM2_CR1 := s.TIM2_CR1 ||| TIM_CR1_CEN, edge_count := 1,
                 EXTI_PR := 0 } := by
      unfold riseEvent
      rw [if_pos hmask]
      exact handler_first_edge { s with EXTI_PR := s.EXTI_PR ||| l.flag } l hl hact
        (by simpa [hpr] using flag_land_self l) (by simpa [hpr] using hb) hidle
    have e2 : riseEvent l
        { s with TIM2_CNT := 0, TIM2_CR1 := s.TIM2_CR1 ||| TIM_CR1_CEN, edge_count := 1,
                 EXTI_PR := 0 } = none := by
      unfold riseEvent
      rw [if_pos hmask]
      unfold freqOf at hz
      cases l with
      | button => exact absurd rfl hl
      | line1 =>
        simp only [Line.number] at hact
        simp only [Line.handler, EXTI0_1_IRQHandler]
        rw [EXTI0_1_button_none _ (show (0 ||| Line.line1.flag) &&& EXTI_PR_PR0 = 0 by decide)]
        simp [EXTI0_1_edge, Line.flag, EXTI_PR_PR1, hact, hz]
      | line2 =>
        simp only [Line.number] at hact
        simp [Line.handler, EXTI2_3_IRQHandler, Line.flag, EXTI_PR_PR2, hact, hz]
    simp only [run, step, e1, e2, Option.some_bind, Option.bind_eq_bind, Option.none_bind]

/-- C15 (witness): the initial state at 48 MHz, line 1. -/
theorem conversion_unguarded_against_zero_witness :
    (∀ T, T < 2 ^ 32 → (freqOf T (initState 48000000).SystemCoreClock ≠ none ↔ 0 < T)) ∧
    f32div (f32ofNat 0) (f32ofNat (initState 48000000).SystemCoreClock) = F32.fin 0 0 ∧
    f32div (f32ofNat 1) (F32.fin 0 0) = F32.inf ∧
    f32toU32 F32.inf = none ∧
    run (initState 48000000) [Event.rise Line.line1, Event.rise Line.line1] = none :=
  conversion_unguarded_against_zero (initState 48000000) Line.line1 (by decide) (by decide)
    (by decide) (by decide) (by decide) (by decide) (by decide)

/-! ## The two-state capture machine -/

theorem handler_inv (s t : State) (l : Line) (h : l.handler s = some t)
    (hs : (s.edge_count = 0 ∨ s.edge_count = 1) ∧ (s.input_line = 1 ∨ s.input_line = 2)) :
    (t.edge_count = 0 ∨ t.edge_count = 1) ∧ (t.input_line = 1 ∨ t.input_line = 2) := by
  have key2 : ∀ u v : State, EXTI2_3_IRQHandler u = some v →
      ((u.edge_count = 0 ∨ u.edge_count = 1) ∧ (u.input_line = 1 ∨ u.input_line = 2)) →
      (v.edge_count = 0 ∨ v.edge_count = 1) ∧ (v.input_line = 1 ∨ v.input_line = 2) := by
    intro u v huv hu
    unfold EXTI2_3_IRQHandler at huv
    by_cases hp : u.EXTI_PR &&& EXTI_PR_PR2 ≠ 0
    · by_cases hl : u.input_line = 2
      · by_cases he : u.edge_count = 0
        · simp only [hp, hl, he, if_true, ne_eq, not_false_eq_true, Option.map_some',
            Option.some.injEq] at huv
          subst huv
          exact ⟨Or.inr rfl, Or.inr rfl⟩
        · cases hq : f32toU32 (f32div (f32ofNat 1)
              (f32div (f32ofNat u.TIM2_CNT) (f32ofNat u.SystemCoreClock))) with
          | none => simp [hp, hl, he, hq] at huv
          | some w =>
            simp only [hp, hl, he, hq, if_true, if_false, ne_eq, not_false_eq_true,
              Option.map_some', Option.some.injEq] at huv
            subst huv
            exact ⟨Or.inl rfl, Or.inr rfl⟩
      · simp only [hp, hl, if_true, if_false, ne_eq, not_false_eq_true, Option.map_some',
          Option.some.injEq] at huv
        subst huv
        exact hu
    · simp only [hp, if_false, Option.some.injEq] at huv
      subst huv
      exact hu
  have keyE : ∀ u v : State, EXTI0_1_edge u = some v →
      ((u.edge_count = 0 ∨ u.edge_count = 1) ∧ (u.input_line = 1 ∨ u.input_line = 2)) →
      (v.edge_count = 0 ∨ v.edge_count = 1) ∧ (v.input_line = 1 ∨ v.input_line = 2) := by
    intro u v huv hu
    unfold EXTI0_1_edge at huv
    by_cases hp : u.EXTI_PR &&& EXTI_PR_PR1 ≠ 0
    · by_cases hl : u.input_line = 1
      · by_cases he : u.edge_count = 0
        · simp only [hp, hl, he, if_true, ne_eq, not_false_eq_true, Option.map_some',
            Option.some.injEq] at huv
          subst huv
          exact ⟨Or.inr rfl, Or.inl rfl⟩
        · cases hq : f32toU32 (f32div (f32ofNat 1)
              (f32div (f32ofNat u.TIM2_CNT) (f32ofNat u.SystemCoreClock))) with
          | none => simp [hp, hl, he, hq] at huv
          | some w =>
            simp only [hp, hl, he, hq, if_true, if_false, ne_eq, not_false_eq_true,
              Option.map_some', Option.some.injEq] at huv
            subst huv
            exact ⟨Or.inl rfl, Or.inl rfl⟩
      · simp only [hp, hl, if_true, if_false, ne_eq, not_false_eq_true, Option.map_some',
          Option.some.injEq] at huv
        subst huv
        exact hu
    · simp only [hp, if_false, Option.some.injEq] at huv
      subst huv
      exact hu
  have keyB : ∀ u : State,
      ((u.edge_count = 0 ∨ u.edge_count = 1) ∧ (u.input_line = 1 ∨ u.input_line = 2)) →
      ((EXTI0_1_button u).edge_count = 0 ∨ (EXTI0_1_button u).edge_count = 1) ∧
      ((EXTI0_1_button u).input_line = 1 ∨ (EXTI0_1_button u).input_line = 2) := by
    intro u hu
    unfold EXTI0_1_button
    split_ifs with hp hl
    · exact ⟨hu.1, Or.inr rfl⟩
    · exact ⟨hu.1, Or.inl rfl⟩
    · exact hu
  cases l with
  | line2 => exact key2 s t h hs
  | button => exact keyE _ t h (keyB s hs)
  | line1 => exact keyE _ t h (keyB s hs)

theorem step_inv (s t : State) (e : Event) (h : step s e = some t)
    (hs : (s.edge_count = 0 ∨ s.edge_count = 1) ∧ (s.input_line = 1 ∨ s.input_line = 2)) :
    (t.edge_count = 0 ∨ t.edge_count = 1) ∧ (t.input_line = 1 ∨ t.input_line = 2) := by
  cases e with
  | ticks n =>
    simp only [step, Option.some.injEq] at h
    subst h
    unfold countTicks
    split_ifs
    · exact hs
    · exact hs
  | rise l =>
    simp only [step, riseEvent] at h
    split_ifs at h with hm
    · exact handler_inv _ t l h hs
    · simp only [Option.some.injEq] at h
      subst h
      exact hs

theorem run_inv (es : List Event) : ∀ (s t : State), run s es = some t →
    ((s.edge_count = 0 ∨ s.edge_count = 1) ∧ (s.input_line = 1 ∨ s.input_line = 2)) →
    (t.edge_count = 0 ∨ t.edge_count = 1) ∧ (t.input_line = 1 ∨ t.input_line = 2) := by
  induction es with
  | nil =>
    intro s t h hs
    simp only [run, Option.some.injEq] at h
    subst h
    exact hs
  | cons e es ih =>
    intro s t h hs
    simp only [run] at h
    cases hstep : step s e with
    | none => rw [hstep] at h; simp at h
    | some u =>
      rw [hstep] at h
      simp only [Option.some_bind, Option.bind_eq_bind] at h
      exact ih u t h (step_inv s u e hstep hs)


theorem rise_idle (s : State) (l : Line) (hl : l ≠ Line.button)
    (hact : s.input_line = l.number) (hidle : s.edge_count = 0) (hpr : s.EXTI_PR = 0)
    (hmask : s.EXTI_IMR &&& l.flag ≠ 0) :
    riseEvent l s = some
      { s with TIM2_CNT := 0, TIM2_CR1 := s.TIM2_CR1 ||| TIM_CR1_CEN, edge_count := 1,
               EXTI_PR := 0 } := by
  have hb : l = Line.line1 → (0 ||| l.flag) &&& EXTI_PR_PR0 = 0 := by
    intro h; subst h; decide
  unfold riseEvent
  rw [if_pos hmask]
  exact handler_first_edge { s with EXTI_PR := s.EXTI_PR ||| l.flag } l hl hact
    (by simpa [hpr] using flag_land_self l) (by simpa [hpr] using hb) hidle

theorem rise_armed (s : State) (l : Line) (n v : Nat) (hl : l ≠ Line.button)
    (hact : s.input_line = l.number) (hmask : s.EXTI_IMR &&& l.flag ≠ 0)
    (hv : freqOf n s.SystemCoreClock = some v) :
    riseEvent l
      { s with TIM2_CNT := n, TIM2_CR1 := s.TIM2_CR1 ||| TIM_CR1_CEN, edge_count := 1,
               EXTI_PR := 0 } = some
      { s with TIM2_CNT := n,
               TIM2_CR1 := (s.TIM2_CR1 ||| TIM_CR1_CEN) &&& not32 TIM_CR1_CEN,
               Freq := v, edge_count := 0, EXTI_PR := 0 } := by
  have hb : l = Line.line1 → (0 ||| l.flag) &&& EXTI_PR_PR0 = 0 := by
    intro h; subst h; decide
  unfold riseEvent
  rw [if_pos hmask]
  exact handler_second_edge
    { s with TIM2_CNT := n, TIM2_CR1 := s.TIM2_CR1 ||| TIM_CR1_CEN, edge_count := 1,
             EXTI_PR := 0 ||| l.flag } l hl hact (flag_land_self l) hb (by simp) v hv

theorem ticks_armed (s : State) (n : Nat) (hn : n < 2 ^ 32) :
    countTicks n
      { s with TIM2_CNT := 0, TIM2_CR1 := s.TIM2_CR1 ||| TIM_CR1_CEN, edge_count := 1,
               EXTI_PR := 0 } =
      { s with TIM2_CNT := n, TIM2_CR1 := s.TIM2_CR1 ||| TIM_CR1_CEN, edge_count := 1,
               EXTI_PR := 0 } := by
  unfold countTicks
  rw [if_pos (by rw [lor_CEN_land_CEN]; decide)]
  have hmod : (0 + n) % 2 ^ 32 = n := by
    rw [Nat.zero_add]; exact Nat.mod_eq_of_lt hn
  simp only [hmod]

/-- C17: every state reached from the initial state (`edge_count = 0`,
`input_line = 1`) by a sequence of button, line-1-edge, line-2-edge and
counter-tick events has `edge_count` 0 or 1 and `input_line` 1 or 2; and from an
idle state two successive edges on the active line, `0 < n < 2 ^ 32` counter
ticks apart at a counting clock `0 < F < 2 ^ 31` and with no toggle in
between, take the machine from idle to armed (`edge_count = 1`) and back to
idle (`edge_count = 0`). -/
theorem capture_machine_two_states (F : Nat) (es : List Event) (t : State)
    (hrun : run (initState F) es = some t)
    (s : State) (l : Line) (n : Nat) (hl : l ≠ Line.button)
    (hact : s.input_line = l.number) (hidle : s.edge_count = 0) (hpr : s.EXTI_PR = 0)
    (hmask : s.EXTI_IMR &&& l.flag ≠ 0) (hn : 0 < n) (hn32 : n < 2 ^ 32)
    (hF : 0 < s.SystemCoreClock) (hF31 : s.SystemCoreClock < 2 ^ 31) :
    ((t.edge_count = 0 ∨ t.edge_count = 1) ∧ (t.input_line = 1 ∨ t.input_line = 2)) ∧
    ((initState F).edge_count = 0 ∧ (initState F).input_line = 1) ∧
    ∃ t1 t2, step s (Event.rise l) = some t1 ∧ t1.edge_count = 1 ∧
      run t1 [Event.ticks n, Event.rise l] = some t2 ∧ t2.edge_count = 0 := by
  refine ⟨run_inv es _ t hrun ⟨Or.inl rfl, Or.inl rfl⟩, ⟨rfl, rfl⟩, ?_⟩
  obtain ⟨v, hv, _⟩ := freqOf_spec n s.SystemCoreClock hn hn32 hF hF31
  have key : run { s with TIM2_CNT := 0, TIM2_CR1 := s.TIM2_CR1 ||| TIM_CR1_CEN,
                          edge_count := 1, EXTI_PR := 0 }
      [Event.ticks n, Event.rise l] = some
      { s with TIM2_CNT := n,
               TIM2_CR1 := (s.TIM2_CR1 ||| TIM_CR1_CEN) &&& not32 TIM_CR1_CEN,
               Freq := v, edge_count := 0, EXTI_PR := 0 } := by
    simp only [run, step, ticks_armed s n hn32, rise_armed s l n v hl hact hmask hv,
      Option.some_bind, Option.bind_eq_bind]
  exact ⟨_, _, rise_idle s l hl hact hidle hpr hmask, rfl, key, rfl⟩

/-- C17 (witness): the run edge on line 1, 48000 ticks, button from the
initial state at 48 MHz, and two edges on line 1 from the initial state. -/
theorem capture_machine_two_states_witness :
    ((toggledArmed.edge_count = 0 ∨ toggledArmed.edge_count = 1) ∧
      (toggledArmed.input_line = 1 ∨ toggledArmed.input_line = 2)) ∧
    ((initState 48000000).edge_count = 0 ∧ (initState 48000000).input_line = 1) ∧
    ∃ t1 t2, step (initState 48000000) (Event.rise Line.line1) = some t1 ∧ t1.edge_count = 1 ∧
      run t1 [Event.ticks 48000, Event.rise Line.line1] = some t2 ∧ t2.edge_count = 0 :=
  capture_machine_two_states 48000000
    [Event.rise Line.line1, Event.ticks 48000, Event.rise Line.button] toggledArmed
    (by decide) (initState 48000000) Line.line1 48000 (by decide) (by decide) (by decide)
    (by decide) (by decide) (by decide) (by decide) (by decide) (by decide)

/-! ## Startup -/

theorem oled_config_frame (s : State) : RenderFrame { s with PB4 := true } (oled_config s) := by
  have hD : ∀ b (u : State), RenderFrame u (oled_Write_Data b u) := by
    intro b u; simp [RenderFrame, oled_Write_Data, oled_Write]
  have hC : ∀ b (u : State), RenderFrame u (oled_Write_Cmd b u) := by
    intro b u; simp [RenderFrame, oled_Write_Cmd, oled_Write]
  have hZ : ∀ n (u : State), RenderFrame u (zeroFill n u) := by
    intro n
    induction n with
    | zero => intro u; exact RenderFrame.refl u
    | succ n ih => intro u; exact (hD 0 u).trans (ih _)
  have hL : ∀ n page (u : State), RenderFrame u (clearLoop n page u) := by
    intro n
    induction n with
    | zero => intro page u; exact RenderFrame.refl u
    | succ n ih =>
      intro page u
      exact ((((hC page u).trans (hC 0x02 _)).trans (hC 0x10 _)).trans (hZ 128 _)).trans
        (ih _ _)
  have hI : ∀ (bs : List Nat) (u : State),
      RenderFrame u (bs.foldl (fun t b => oled_Write_Cmd b t) u) := by
    intro bs
    induction bs with
    | nil => intro u; exact RenderFrame.refl u
    | cons b bs ih => intro u; exact (hC b u).trans (ih _)
  have h1 : RenderFrame { s with PB4 := true }
      (wait 3 { wait 3 { s with PB4 := false } with PB4 := true }) := by
    simp [RenderFrame, wait]
  unfold oled_config oled_clear
  exact ((h1.trans (hI _ _)).trans ((hC 0x02 _).trans (hC 0x10 _))).trans (hL 8 0xB0 _)

theorem main_startup_bus (s : State) :
    ∃ t, main_startup s = some t ∧
      t.bus = s.bus ++ oled_init_cmds.map cmdByte ++ clearTrace ++ bannerTrace
        ++ oled_init_cmds.map cmdByte ++ clearTrace := by
  obtain ⟨u, hu, _, bu⟩ := perma_print_frame (oled_config (myEXTI_Init (myTIM3_Init (myTIM2_Init s))))
  refine ⟨oled_config u, ?_, ?_⟩
  · unfold main_startup
    simp only [hu, Option.map_some']
  · rw [oled_config_bus, bu, oled_config_bus]
    rfl

theorem cmdByte_AE_not_mem_clearTrace : cmdByte 0xAE ∉ clearTrace := by
  rw [clearTrace_pages]
  simp only [List.mem_append, List.mem_cons, List.mem_flatMap, List.mem_range,
    List.mem_replicate, List.not_mem_nil, cmdByte, dataByte, BusByte.mk.injEq]
  intro h
  rcases h with h | ⟨i, hi, h⟩
  · rcases h with h | h | h
    · omega
    · omega
    · exact h
  · rcases h with h | h
    · rcases h with h | h | h | h
      · omega
      · omega
      · omega
      · exact h
    · simp at h

theorem cmdByte_not_mem_lineTrace (b page : Nat) (text : List Nat)
    (h1 : b ≠ page) (h2 : b ≠ 0x10) (h3 : b ≠ 0x02) : cmdByte b ∉ lineTrace page text := by
  unfold lineTrace
  simp only [List.mem_append, List.mem_cons, List.mem_map, List.not_mem_nil, cmdByte, dataByte,
    BusByte.mk.injEq]
  intro h
  rcases h with h | ⟨a, _, h⟩
  · rcases h with h | h | h | h
    · exact h1 h.1
    · exact h2 h.1
    · exact h3 h.1
    · exact h
  · simp at h

theorem cmdByte_AE_not_mem_bannerTrace : cmdByte 0xAE ∉ bannerTrace := by
  unfold bannerTrace
  simp only [List.mem_append, not_or]
  exact ⟨⟨⟨cmdByte_not_mem_lineTrace _ _ _ (by decide) (by decide) (by decide),
    cmdByte_not_mem_lineTrace _ _ _ (by decide) (by decide) (by decide)⟩,
    cmdByte_not_mem_lineTrace _ _ _ (by decide) (by decide) (by decide)⟩,
    cmdByte_not_mem_lineTrace _ _ _ (by decide) (by decide) (by decide)⟩

theorem count_AE_startup :
    List.count (cmdByte 0xAE)
      (oled_init_cmds.map cmdByte ++ clearTrace ++ bannerTrace
        ++ oled_init_cmds.map cmdByte ++ clearTrace) = 2 := by
  have hi : List.count (cmdByte 0xAE) (oled_init_cmds.map cmdByte) = 1 := by decide
  have hc : List.count (cmdByte 0xAE) clearTrace = 0 :=
    List.count_eq_zero.mpr cmdByte_AE_not_mem_clearTrace
  have hb : List.count (cmdByte 0xAE) bannerTrace = 0 :=
    List.count_eq_zero.mpr cmdByte_AE_not_mem_bannerTrace
  simp only [List.count_append, hi, hc, hb]

/-- C16 (counterexample): the display-off command `0xAE`, which opens
`oled_init_cmds` and occurs once in it, is sent twice during startup, and the
second copy of the table follows data bytes (the 1024 zeros of the first
clear). -/
theorem init_sequence_sent_twice :
    List.count 0xAE oled_init_cmds = 1 ∧
    (∃ t, main_startup (initState 48000000) = some t ∧
      List.count (cmdByte 0xAE) t.bus = 2 ∧
      t.bus = (oled_init_cmds.map cmdByte ++ clearTrace ++ bannerTrace)
        ++ oled_init_cmds.map cmdByte ++ clearTrace) ∧
    (clearTrace.filter fun b => b.dc).length = 1024 := by
  refine ⟨by decide, ?_, clearTrace_data.1⟩
  obtain ⟨t, ht, bt⟩ := main_startup_bus (initState 48000000)
  have hnil : (initState 48000000).bus = [] := rfl
  rw [hnil, List.nil_append] at bt
  exact ⟨t, ht, by rw [bt]; exact count_AE_startup, bt⟩

/-- C16 (amended): startup (`main` before the endless loop) calls `oled_config`
twice, before and after the banner, so `oled_init_cmds` is sent twice; each
time every byte of the table is sent as a command byte, verbatim and in table
order, and the first copy comes before any other byte, command or data. -/
theorem init_sequence_at_each_config (s : State) :
    ∃ t, main_startup s = some t ∧
      t.bus = s.bus ++ oled_init_cmds.map cmdByte ++ clearTrace ++ bannerTrace
        ++ oled_init_cmds.map cmdByte ++ clearTrace ∧
      (oled_init_cmds.map cmdByte).map BusByte.value = oled_init_cmds ∧
      (∀ b ∈ oled_init_cmds.map cmdByte, b.dc = false ∧ b.cs = false) ∧
      List.count (cmdByte 0xAE) (t.bus.drop s.bus.length) = 2 ∧
      List.count 0xAE oled_init_cmds = 1 := by
  obtain ⟨t, ht, bt⟩ := main_startup_bus s
  refine ⟨t, ht, bt, ?_, ?_, ?_, by decide⟩
  · decide
  · intro b hb
    obtain ⟨a, _, rfl⟩ := List.mem_map.mp hb
    exact ⟨rfl, rfl⟩
  · rw [bt]
    simp only [List.append_assoc]
    rw [List.drop_left]
    have := count_AE_startup
    simpa only [List.append_assoc] using this

/-! ## Line length and glyph lookups -/

theorem snprintf_17 (text : List Nat) : snprintf 17 text = text.take 16 ++ [0] := rfl

theorem lineTrace_data_length (page : Nat) (text : List Nat)
    (hchars : ∀ c ∈ text, c ≠ 0 ∧ c < 128) :
    (lineTrace page text).length = 3 + 8 * text.length ∧
    ((lineTrace page text).filter fun b => b.dc).length = 8 * text.length := by
  have hlen := length_flatMap_glyphRow text hchars
  have hf : ∀ l : List Nat, (l.map dataByte).filter (fun b => b.dc) = l.map dataByte := by
    intro l
    induction l with
    | nil => rfl
    | cons a l ih => rw [List.map_cons, List.filter_cons_of_pos (by rfl), ih]
  unfold lineTrace
  constructor
  · rw [List.length_append, List.length_map, hlen]
    rfl
  · rw [List.filter_append, hf, List.length_append, List.length_map, hlen]
    have : ([cmdByte page, cmdByte 0x10, cmdByte 0x02].filter fun b => b.dc) = [] := rfl
    rw [this]
    simp

/-- C19: for every value of `Res` and `Freq`, `refresh_OLED` completes, and
each of the two text lines it hands to the render loop has at most 16
characters (the formatter keeps at most 16 characters and the terminator in the
17-byte buffer); after each page select a redraw sends the column-select pair
and then `8 * length`, at most `16 * 8 = 128`, data bytes. -/
theorem redraw_line_within_page (s : State) :
    ∃ t lineR lineF, refresh_OLED s = some t ∧
      snprintf 17 (resText s.Res) = lineR ++ [0] ∧ lineR.length ≤ 16 ∧
      snprintf 17 (freqText s.Freq) = lineF ++ [0] ∧ lineF.length ≤ 16 ∧
      t.bus = s.bus ++ lineTrace 0xB2 lineR ++ lineTrace 0xB4 lineF ∧
      ((lineTrace 0xB2 lineR).filter fun b => b.dc).length = 8 * lineR.length ∧
      ((lineTrace 0xB4 lineF).filter fun b => b.dc).length = 8 * lineF.length ∧
      ((lineTrace 0xB2 lineR).filter fun b => b.dc).length ≤ 16 * 8 ∧
      ((lineTrace 0xB4 lineF).filter fun b => b.dc).length ≤ 16 * 8 := by
  obtain ⟨t, ht, _, bt⟩ := refresh_OLED_frame s
  have cR : ∀ c ∈ (resText s.Res).take 16, c ≠ 0 ∧ c < 128 :=
    fun c hc => resText_chars s.Res c (List.mem_of_mem_take hc)
  have cF : ∀ c ∈ (freqText s.Freq).take 16, c ≠ 0 ∧ c < 128 :=
    fun c hc => freqText_chars s.Freq c (List.mem_of_mem_take hc)
  have lR : ((resText s.Res).take 16).length ≤ 16 := by
    rw [List.length_take]; exact Nat.min_le_left _ _
  have lF : ((freqText s.Freq).take 16).length ≤ 16 := by
    rw [List.length_take]; exact Nat.min_le_left _ _
  have dR := (lineTrace_data_length 0xB2 _ cR).2
  have dF := (lineTrace_data_length 0xB4 _ cF).2
  refine ⟨t, (resText s.Res).take 16, (freqText s.Freq).take 16, ht, snprintf_17 _, lR,
    snprintf_17 _, lF, bt, dR, dF, ?_, ?_⟩
  · rw [dR]; omega
  · rw [dF]; omega

theorem glyphByte_in_range (c i : Nat) (hc : c < 128) (hi : i ≤ 7) : glyphByte c i ≠ none := by
  rw [glyphByte_eq c i hc]
  have hlen := glyphRow_length c hc
  rw [List.getElem?_eq_getElem (by omega)]
  simp

set_option maxRecDepth 100000 in
theorem Characters_blank_rows :
    Characters.take 33 = List.replicate 33 [0, 0, 0, 0, 0, 0, 0, 0] := by
  decide

/-- C20: the glyph table has exactly 128 rows of 8 bytes, rows 0 to 32 are all
zero; for every value of `Res` and `Freq` every character of the two telemetry
lines, and every character of the four banner lines, has a code below 128;
every lookup `Characters[c][i]` with `c < 128` and `i ≤ 7` is inside the table,
and `refresh_OLED` and `perma_print` complete for every state, that is, no
lookup of theirs is outside the table. -/
theorem glyph_lookups_in_table :
    Characters.length = 128 ∧ (∀ row ∈ Characters, row.length = 8) ∧
    Characters.take 33 = List.replicate 33 [0, 0, 0, 0, 0, 0, 0, 0] ∧
    (∀ Res, ∀ c ∈ resText Res, c < 128) ∧ (∀ Freq, ∀ c ∈ freqText Freq, c < 128) ∧
    (∀ c ∈ cstr "Hi Guoliang! :)", c < 128) ∧ (∀ c ∈ cstr "Presenting...", c < 128) ∧
    (∀ c ∈ cstr "ECE 355 Project", c < 128) ∧ (∀ c ∈ cstr "Sophie & Menoa", c < 128) ∧
    (∀ c i, c < 128 → i ≤ 7 → glyphByte c i ≠ none) ∧
    (∀ s, refresh_OLED s ≠ none) ∧ (∀ s, perma_print s ≠ none) := by
  obtain ⟨c1, c2, c3, c4⟩ := banner_chars
  refine ⟨Characters_length, Characters_rows, Characters_blank_rows,
    fun v c hc => (resText_chars v c hc).2, fun v c hc => (freqText_chars v c hc).2,
    fun c hc => (c1 c hc).2, fun c hc => (c2 c hc).2, fun c hc => (c3 c hc).2,
    fun c hc => (c4 c hc).2, glyphByte_in_range, ?_, ?_⟩
  · intro s
    obtain ⟨t, ht, _⟩ := refresh_OLED_frame s
    rw [ht]; simp
  · intro s
    obtain ⟨t, ht, _⟩ := perma_print_frame s
    rw [ht]; simp

/-! ## Analog loop -/

end Ece355
